import Mathlib

/-!
Verification of the ambrs aerosol-ensemble package against its design
specification.

The development has two layers:

* `Ambrs.PyModel` — a shallow embedding of the Python dataclasses declared in
  `ambrs/aerosol.py`.  A Python `@dataclass` generates an `__init__` that
  accepts exactly one keyword argument per declared field: an unknown keyword
  or a missing field raises `TypeError`, and no further validation is
  performed.  We model keyword-argument lists as association lists of
  `PyVal`s and each dataclass constructor as a function from such a list to
  `Except PyError <record>`.

* `Ambrs.Ppe` — a model of the ensemble/sampling machinery (`ambrs.ppe`,
  `ambrs.scenario`, `PoolRunner`).  Those modules are not part of the
  source tree available here (only their tests and callers are), so the
  definitions in that namespace are modelled from the specification text,
  as indicated in their doc comments.  Real-number quantities are embedded
  as `ℚ` (for the sampling layer, which is exact-arithmetic testable) and
  `ℝ` (for the sweep layer, which needs `log10`); randomness is embedded as
  explicit oracle inputs (sample streams, permutations, jitter draws).
-/

namespace Ambrs

namespace PyModel

/-- A Python value, as far as the dataclass constructors care: constructors
carry strings, numbers, booleans, lists, or opaque distribution objects
(identified by a handle). -/
inductive PyVal where
  | str : String → PyVal
  | num : ℚ → PyVal
  | boolean : Bool → PyVal
  | vals : List PyVal → PyVal
  | dist : ℕ → PyVal

/-- Python exception kinds relevant to dataclass construction. -/
inductive PyError where
  | typeError
  deriving DecidableEq

/-- Look up a keyword argument by name (first occurrence). -/
def findKwarg (kwargs : List (String × PyVal)) (k : String) : Option PyVal :=
  (kwargs.find? (fun kv => kv.fst == k)).map Prod.snd

/-- `AerosolProcesses` from `ambrs/aerosol.py`: a dataclass with exactly the
four boolean fields `aging`, `coagulation`, `mosaic`, `nucleation`. -/
structure AerosolProcesses where
  aging : PyVal
  coagulation : PyVal
  mosaic : PyVal
  nucleation : PyVal

/-- The declared field names of the `AerosolProcesses` dataclass. -/
def aerosolProcessesFields : List String :=
  ["aging", "coagulation", "mosaic", "nucleation"]

/-- The `__init__` generated for the `AerosolProcesses` dataclass: every
keyword must name a declared field, every declared field must be supplied
(no field has a default), otherwise `TypeError`. -/
def mkAerosolProcesses (kwargs : List (String × PyVal)) :
    Except PyError AerosolProcesses :=
  if kwargs.all (fun kv => aerosolProcessesFields.contains kv.fst) then
    match findKwarg kwargs "aging", findKwarg kwargs "coagulation",
        findKwarg kwargs "mosaic", findKwarg kwargs "nucleation" with
    | some a, some c, some m, some n => .ok ⟨a, c, m, n⟩
    | _, _, _, _ => .error .typeError
  else .error .typeError

/-- `AerosolSpecies` from `ambrs/aerosol.py`: a dataclass with exactly the
fields `name` and `molar_mass`. -/
structure AerosolSpecies where
  name : PyVal
  molar_mass : PyVal

/-- The declared field names of the `AerosolSpecies` dataclass. -/
def aerosolSpeciesFields : List String := ["name", "molar_mass"]

/-- The `__init__` generated for the `AerosolSpecies` dataclass. -/
def mkAerosolSpecies (kwargs : List (String × PyVal)) :
    Except PyError AerosolSpecies :=
  if kwargs.all (fun kv => aerosolSpeciesFields.contains kv.fst) then
    match findKwarg kwargs "name", findKwarg kwargs "molar_mass" with
    | some nm, some mm => .ok ⟨nm, mm⟩
    | _, _ => .error .typeError
  else .error .typeError

/-- `AerosolModeDistribution` from `ambrs/aerosol.py`: a dataclass with
exactly the fields `name`, `species`, `number`, `geom_mean_diam`,
`mass_fractions`, and no `__post_init__` (no validation beyond keyword
matching). -/
structure AerosolModeDistribution where
  name : PyVal
  species : PyVal
  number : PyVal
  geom_mean_diam : PyVal
  mass_fractions : PyVal

/-- The declared field names of the `AerosolModeDistribution` dataclass. -/
def aerosolModeDistributionFields : List String :=
  ["name", "species", "number", "geom_mean_diam", "mass_fractions"]

/-- The `__init__` generated for the `AerosolModeDistribution` dataclass. -/
def mkAerosolModeDistribution (kwargs : List (String × PyVal)) :
    Except PyError AerosolModeDistribution :=
  if kwargs.all (fun kv => aerosolModeDistributionFields.contains kv.fst) then
    match findKwarg kwargs "name", findKwarg kwargs "species",
        findKwarg kwargs "number", findKwarg kwargs "geom_mean_diam",
        findKwarg kwargs "mass_fractions" with
    | some nm, some sp, some nu, some gm, some mf => .ok ⟨nm, sp, nu, gm, mf⟩
    | _, _, _, _, _ => .error .typeError
  else .error .typeError

end PyModel

/-- Decidable equality for `Except` results (missing from the core
library), used to evaluate the model on concrete inputs. -/
instance instDecidableEqExcept {ε α : Type} [DecidableEq ε] [DecidableEq α] :
    DecidableEq (Except ε α) := fun x y =>
  match x, y with
  | .ok a, .ok b =>
    if h : a = b then .isTrue (by rw [h])
    else .isFalse (fun hc => h (Except.ok.inj hc))
  | .error e1, .error e2 =>
    if h : e1 = e2 then .isTrue (by rw [h])
    else .isFalse (fun hc => h (Except.error.inj hc))
  | .ok _, .error _ => .isFalse (fun hc => Except.noConfusion hc)
  | .error _, .ok _ => .isFalse (fun hc => Except.noConfusion hc)

namespace Ppe

/-- Error kinds raised by the ensemble machinery (spec section 7). -/
inductive Err where
  | shapeError
  | unsupportedDistributionError
  | valueError
  deriving DecidableEq

/-- Modelled from the spec: the state form of an aerosol mode
(`AerosolModeState` of `ambrs.aerosol`, which is not in the available
source tree): name, ordered species tuple, number concentration, geometric
mean diameter, log10 geometric standard deviation, and mass fractions
aligned positionally with the species. `α` is the scalar number type. -/
structure AerosolModeState (α : Type) where
  name : String
  species : List String
  number : α
  geom_mean_diam : α
  log10_geom_std_dev : α
  mass_fractions : List α
  deriving DecidableEq, Inhabited

/-- Modelled from the spec: a `Scenario` of `ambrs.scenario` (not in the
available source tree): one full physical parameter point. -/
structure Scenario (α : Type) where
  aerosols : List String
  gases : List String
  modes : List (AerosolModeState α)
  gas_concs : List α
  flux : α
  relative_humidity : α
  temperature : α
  pressure : α
  height : α
  deriving DecidableEq, Inhabited

/-- Modelled from the spec: the columnar counterpart of one aerosol mode
(`AerosolModePopulation` of `ambrs.aerosol`, not in the available source
tree): every scalar leaf becomes a fixed-length column, and
`mass_fractions` holds one column per species. -/
structure AerosolModePopulation (α : Type) where
  name : String
  species : List String
  number : List α
  geom_mean_diam : List α
  log10_geom_std_dev : List α
  mass_fractions : List (List α)
  deriving DecidableEq, Inhabited

/-- Modelled from the spec: the columnar `Ensemble` of `ambrs.ppe` (not in
the available source tree): every field of a Scenario becomes a column of
length `n`, with row `i` holding member `i`. -/
structure Ensemble (α : Type) where
  aerosols : List String
  gases : List String
  modes : List (AerosolModePopulation α)
  gas_concs : List (List α)
  flux : List α
  relative_humidity : List α
  temperature : List α
  pressure : List α
  height : List α
  deriving DecidableEq, Inhabited

/-- The length of an ensemble (`len(ensemble)` in Python): the common
length of its columns. -/
def Ensemble.len {α : Type} (e : Ensemble α) : ℕ := e.flux.length

/-- Modelled from the spec: extract row `i` of one mode population as a
mode state; `none` when `i` is out of range of some column. -/
def AerosolModePopulation.memberMode {α : Type} (m : AerosolModePopulation α)
    (i : ℕ) : Option (AerosolModeState α) := do
  let number ← m.number.get? i
  let gmd ← m.geom_mean_diam.get? i
  let lgsd ← m.log10_geom_std_dev.get? i
  let mfs ← m.mass_fractions.mapM (fun c => c.get? i)
  pure ⟨m.name, m.species, number, gmd, lgsd, mfs⟩

/-- Row `i` of a mode population as a total function (out-of-range entries
take the default value); when `memberMode` succeeds it returns exactly this
row. -/
def AerosolModePopulation.rowAt {α : Type} [Inhabited α]
    (mp : AerosolModePopulation α) (i : ℕ) : AerosolModeState α :=
  { name := mp.name
    species := mp.species
    number := mp.number.getD i default
    geom_mean_diam := mp.geom_mean_diam.getD i default
    log10_geom_std_dev := mp.log10_geom_std_dev.getD i default
    mass_fractions := mp.mass_fractions.map (fun c => c.getD i default) }

/-- Modelled from the spec: `Ensemble.member(i)` extracts row `i` into a
Scenario; out-of-range access fails (modelled as `none`). -/
def Ensemble.member {α : Type} (e : Ensemble α) (i : ℕ) :
    Option (Scenario α) := do
  let modes ← e.modes.mapM (fun m => m.memberMode i)
  let gcs ← e.gas_concs.mapM (fun c => c.get? i)
  let flux ← e.flux.get? i
  let rh ← e.relative_humidity.get? i
  let T ← e.temperature.get? i
  let p ← e.pressure.get? i
  let h ← e.height.get? i
  pure ⟨e.aerosols, e.gases, modes, gcs, flux, rh, T, p, h⟩

/-- Two scenarios share a layout when they agree on species tuples, gas
tuples, mode names/species, and the lengths of the positional tuples
(spec section 4.3: `ensemble_from_scenarios` validates this). -/
def sameLayout {α : Type} (s t : Scenario α) : Bool :=
  s.aerosols == t.aerosols && s.gases == t.gases &&
  s.gas_concs.length == t.gas_concs.length &&
  s.modes.length == t.modes.length &&
  (List.zip s.modes t.modes).all (fun p =>
    p.1.name == p.2.name && p.1.species == p.2.species &&
    p.1.mass_fractions.length == p.2.mass_fractions.length)

/-- Modelled from the spec: pack the `j`-th mode of every scenario into a
columnar mode population (layout taken from `m0`, the `j`-th mode of the
first scenario). -/
def packMode {α : Type} [Inhabited α] (scenarios : List (Scenario α))
    (m0 : AerosolModeState α) (j : ℕ) : AerosolModePopulation α :=
  { name := m0.name
    species := m0.species
    number := scenarios.map (fun s => (s.modes.getD j default).number)
    geom_mean_diam :=
      scenarios.map (fun s => (s.modes.getD j default).geom_mean_diam)
    log10_geom_std_dev :=
      scenarios.map (fun s => (s.modes.getD j default).log10_geom_std_dev)
    mass_fractions := (List.range m0.mass_fractions.length).map (fun k =>
      scenarios.map (fun s =>
        (s.modes.getD j default).mass_fractions.getD k default)) }

/-- Modelled from the spec: `ensemble_from_scenarios` packs a sequence of
Scenarios into a columnar Ensemble after validating that all scenarios
share identical species tuples, gas tuples and mode layout (else
`ShapeError`). -/
def ensemble_from_scenarios {α : Type} [Inhabited α]
    (scenarios : List (Scenario α)) : Except Err (Ensemble α) :=
  match scenarios with
  | [] => .ok ⟨[], [], [], [], [], [], [], [], []⟩
  | s0 :: rest =>
    if (s0 :: rest).all (fun s => sameLayout s0 s) then
      .ok
        { aerosols := s0.aerosols
          gases := s0.gases
          modes := (List.range s0.modes.length).map (fun j =>
            packMode (s0 :: rest) (s0.modes.getD j default) j)
          gas_concs := (List.range s0.gas_concs.length).map (fun k =>
            (s0 :: rest).map (fun s => s.gas_concs.getD k default))
          flux := (s0 :: rest).map (fun s => s.flux)
          relative_humidity := (s0 :: rest).map (fun s => s.relative_humidity)
          temperature := (s0 :: rest).map (fun s => s.temperature)
          pressure := (s0 :: rest).map (fun s => s.pressure)
          height := (s0 :: rest).map (fun s => s.height) }
    else .error .shapeError

/-- Modelled from the spec: a scipy-style continuous distribution object, as
the sampler uses it: a stream of independent draws, an optional inverse CDF
(percent-point function), and the LHS randomness (a stratum permutation for
each `n`, and a stream of uniform(0,1) jitter draws). -/
structure Distribution where
  draw : ℕ → ℚ
  icdf : Option (ℚ → ℚ)
  lhsPerm : ℕ → ℕ → ℕ
  jitter : ℕ → ℚ

/-- Modelled from the spec: a leaf of the specification tree is either a
fixed scalar (non-sampled, shared by the whole ensemble) or a distribution. -/
inductive SpecLeaf where
  | fixed : ℚ → SpecLeaf
  | dist : Distribution → SpecLeaf

/-- A leaf supports LHS when it is fixed or its distribution exposes an
inverse CDF. -/
def SpecLeaf.supportsICDF : SpecLeaf → Bool
  | .fixed _ => true
  | .dist d => d.icdf.isSome

/-- Modelled from the spec: independent sampling of one leaf: a fixed leaf
is broadcast unchanged to length `n`, a distribution leaf yields `n`
independent draws. -/
def sampleLeaf (n : ℕ) : SpecLeaf → List ℚ
  | .fixed v => List.replicate n v
  | .dist d => (List.range n).map d.draw

/-- The sum across columns of the row-`i` entries (entries past the end of
a column count as 0). -/
def rowSum (cols : List (List ℚ)) (i : ℕ) : ℚ :=
  (cols.map (fun c => c.getD i 0)).sum

/-- Modelled from the spec: the mandatory renormalization pass on sampled
mass fractions: each member's raw mass-fraction vector (row `i` across the
mode's columns) is rescaled by its own sum. -/
def normalizeMassFractions (cols : List (List ℚ)) : List (List ℚ) :=
  cols.map (fun c => c.mapIdx (fun i x => x / rowSum cols i))

/-- Modelled from the spec: the distribution form of an aerosol mode as the
sampler consumes it (the mode node of an `EnsembleSpecification`, with one
leaf per mode-state field). -/
structure AerosolModeDistribution where
  name : String
  species : List String
  number : SpecLeaf
  geom_mean_diam : SpecLeaf
  log10_geom_std_dev : SpecLeaf
  mass_fractions : List SpecLeaf

/-- Modelled from the spec: `EnsembleSpecification` from `ambrs.ppe` (not
in the available source tree): same shape as a Scenario with every
previously-scalar field held fixed or replaced by a distribution leaf. -/
structure EnsembleSpecification where
  name : String
  aerosols : List String
  gases : List String
  modes : List AerosolModeDistribution
  gas_concs : List SpecLeaf
  flux : SpecLeaf
  relative_humidity : SpecLeaf
  temperature : SpecLeaf
  pressure : SpecLeaf
  height : SpecLeaf

/-- All leaves of one mode node. -/
def AerosolModeDistribution.leaves (m : AerosolModeDistribution) :
    List SpecLeaf :=
  m.number :: m.geom_mean_diam :: m.log10_geom_std_dev :: m.mass_fractions

/-- All distribution-tree leaves of a specification. -/
def EnsembleSpecification.leaves (spec : EnsembleSpecification) :
    List SpecLeaf :=
  (spec.modes.map AerosolModeDistribution.leaves).flatten ++ spec.gas_concs ++
  [spec.flux, spec.relative_humidity, spec.temperature, spec.pressure,
   spec.height]

/-- Modelled from the spec: independent sampling of one mode, with the
mandatory mass-fraction renormalization pass. -/
def sampleMode (n : ℕ) (m : AerosolModeDistribution) :
    AerosolModePopulation ℚ :=
  { name := m.name
    species := m.species
    number := sampleLeaf n m.number
    geom_mean_diam := sampleLeaf n m.geom_mean_diam
    log10_geom_std_dev := sampleLeaf n m.log10_geom_std_dev
    mass_fractions :=
      normalizeMassFractions (m.mass_fractions.map (sampleLeaf n)) }

/-- Modelled from the spec: `sample(spec, n)` — independent random
sampling; `n <= 0` is rejected, fixed leaves are broadcast, every
distribution leaf is sampled independently, and each mode's mass fractions
are renormalized per member before the Ensemble is returned. -/
def sample (spec : EnsembleSpecification) (n : ℤ) :
    Except Err (Ensemble ℚ) :=
  if n ≤ 0 then .error .valueError
  else .ok
    { aerosols := spec.aerosols
      gases := spec.gases
      modes := spec.modes.map (sampleMode n.toNat)
      gas_concs := spec.gas_concs.map (sampleLeaf n.toNat)
      flux := sampleLeaf n.toNat spec.flux
      relative_humidity := sampleLeaf n.toNat spec.relative_humidity
      temperature := sampleLeaf n.toNat spec.temperature
      pressure := sampleLeaf n.toNat spec.pressure
      height := sampleLeaf n.toNat spec.height }

/-- Modelled from the spec: LHS sampling of one leaf: a fixed leaf is
broadcast (not perturbed); a distribution leaf without an inverse CDF is
rejected with `UnsupportedDistributionError`; otherwise row `r` receives
the quantile `(perm[r] + jitter[r]) / n` mapped through the inverse CDF. -/
def lhsLeaf (n : ℕ) : SpecLeaf → Except Err (List ℚ)
  | .fixed v => .ok (List.replicate n v)
  | .dist d =>
    match d.icdf with
    | none => .error .unsupportedDistributionError
    | some f => .ok ((List.range n).map (fun r =>
        f (((d.lhsPerm n r : ℚ) + d.jitter r) / (n : ℚ))))

/-- Modelled from the spec: LHS sampling of one mode, with the mandatory
mass-fraction renormalization pass. -/
def lhsMode (n : ℕ) (m : AerosolModeDistribution) :
    Except Err (AerosolModePopulation ℚ) := do
  let number ← lhsLeaf n m.number
  let gmd ← lhsLeaf n m.geom_mean_diam
  let lgsd ← lhsLeaf n m.log10_geom_std_dev
  let raw ← m.mass_fractions.mapM (lhsLeaf n)
  pure ⟨m.name, m.species, number, gmd, lgsd, normalizeMassFractions raw⟩

/-- Modelled from the spec: `lhs(spec, n)` — Latin Hypercube Sampling;
`n <= 0` is rejected, and a distribution leaf lacking an inverse CDF makes
the whole call fail (no partial Ensemble). -/
def lhs (spec : EnsembleSpecification) (n : ℤ) : Except Err (Ensemble ℚ) :=
  if n ≤ 0 then .error .valueError
  else do
    let modes ← spec.modes.mapM (lhsMode n.toNat)
    let gcs ← spec.gas_concs.mapM (lhsLeaf n.toNat)
    let flux ← lhsLeaf n.toNat spec.flux
    let rh ← lhsLeaf n.toNat spec.relative_humidity
    let T ← lhsLeaf n.toNat spec.temperature
    let p ← lhsLeaf n.toNat spec.pressure
    let h ← lhsLeaf n.toNat spec.height
    pure ⟨spec.aerosols, spec.gases, modes, gcs, flux, rh, T, p, h⟩

/-- Modelled from the spec: a sweep rule: `linear(start, stop, count)` or
`logarithmic(start, stop, count)`, over the scalar type `α`. -/
inductive ParameterSweep (α : Type) where
  | linear : α → α → ℕ → ParameterSweep α
  | logarithmic : α → α → ℕ → ParameterSweep α

/-- The declared count of a sweep rule. -/
def ParameterSweep.count {α : Type} : ParameterSweep α → ℕ
  | .linear _ _ c => c
  | .logarithmic _ _ c => c

/-- Modelled from the spec and the tests: the value sequence of a sweep
rule: member `i` of `linear(start, stop, count)` is
`start + i*(stop-start)/count`, and member `i` of
`logarithmic(start, stop, count)` is the value whose base-10 logarithm is
`log10(start) + i*(log10(stop)-log10(start))/count`, for
`i = 0, ..., count-1`.  The base-10 logarithm and its inverse are passed
in as `log10` and `exp10` (instantiated with the real functions in the
theorems below) so the definition stays executable for every `α`. -/
def ParameterSweep.values {α : Type} [Field α] (log10 exp10 : α → α) :
    ParameterSweep α → List α
  | .linear start stop c => (List.range c).map (fun i : ℕ =>
      start + (i : α) * ((stop - start) / (c : α)))
  | .logarithmic start stop c => (List.range c).map (fun i : ℕ =>
      exp10 (log10 start +
        (i : α) * ((log10 stop - log10 start) / (c : α))))

/-- Modelled from the spec: per-mode sweep descriptors (each leaf either
absent, meaning held at baseline, or a sweep rule). -/
structure AerosolModeParameterSweeps (α : Type) where
  species : List String
  number : Option (ParameterSweep α)
  geom_mean_diam : Option (ParameterSweep α)
  log10_geom_std_dev : Option (ParameterSweep α)

/-- Modelled from the spec: per-size-distribution sweep descriptors, with
an explicit no-sweep marker (`none`) for unswept sibling modes. -/
structure AerosolModalSizeParameterSweeps (α : Type) where
  modes : List (Option (AerosolModeParameterSweeps α))

/-- Modelled from the spec: the top-level sweep descriptor tree, mirroring
the EnsembleSpecification shape. -/
structure AerosolParameterSweeps (α : Type) where
  size : Option (AerosolModalSizeParameterSweeps α)
  flux : Option (ParameterSweep α)
  relative_humidity : Option (ParameterSweep α)
  temperature : Option (ParameterSweep α)
  pressure : Option (ParameterSweep α)
  height : Option (ParameterSweep α)

/-- The counts declared by the present leaves of one mode descriptor. -/
def AerosolModeParameterSweeps.counts {α : Type}
    (ms : AerosolModeParameterSweeps α) : List ℕ :=
  (ms.number.map ParameterSweep.count).toList ++
  (ms.geom_mean_diam.map ParameterSweep.count).toList ++
  (ms.log10_geom_std_dev.map ParameterSweep.count).toList

/-- The counts declared by all present leaves of a sweep tree. -/
def AerosolParameterSweeps.counts {α : Type}
    (sw : AerosolParameterSweeps α) : List ℕ :=
  (match sw.size with
   | none => []
   | some sz => (sz.modes.map (fun om =>
      match om with
      | none => []
      | some ms => ms.counts)).flatten) ++
  (sw.flux.map ParameterSweep.count).toList ++
  (sw.relative_humidity.map ParameterSweep.count).toList ++
  (sw.temperature.map ParameterSweep.count).toList ++
  (sw.pressure.map ParameterSweep.count).toList ++
  (sw.height.map ParameterSweep.count).toList

/-- Modelled from the spec: one swept or broadcast column: an absent leaf
is broadcast from the baseline value to the common count, a present leaf
produces its value sequence. -/
def sweepLeaf {α : Type} [Field α] (log10 exp10 : α → α) (c : ℕ) (b : α) :
    Option (ParameterSweep α) → List α
  | none => List.replicate c b
  | some ps => ps.values log10 exp10

/-- Modelled from the spec: sweep one mode: unswept fields and all mass
fractions are broadcast verbatim from the baseline mode. -/
def sweepMode {α : Type} [Field α] (log10 exp10 : α → α) (c : ℕ)
    (bm : AerosolModeState α) (o : Option (AerosolModeParameterSweeps α)) :
    AerosolModePopulation α :=
  { name := bm.name
    species := bm.species
    number := sweepLeaf log10 exp10 c bm.number (o.bind (fun ms => ms.number))
    geom_mean_diam :=
      sweepLeaf log10 exp10 c bm.geom_mean_diam
        (o.bind (fun ms => ms.geom_mean_diam))
    log10_geom_std_dev :=
      sweepLeaf log10 exp10 c bm.log10_geom_std_dev
        (o.bind (fun ms => ms.log10_geom_std_dev))
    mass_fractions := bm.mass_fractions.map (List.replicate c) }

/-- The mode descriptor at position `j` of the sweep tree (explicit
no-sweep markers and missing positions both mean "held at baseline"). -/
def modeSweepAt {α : Type} (sw : AerosolParameterSweeps α) (j : ℕ) :
    Option (AerosolModeParameterSweeps α) :=
  match sw.size with
  | none => none
  | some sz => sz.modes.getD j none

/-- Modelled from the spec: `sweep(baseline, sweeps)`: all present leaves
must declare the same count (else `ShapeError`; a sweep with no swept leaf
has no defined count and is also rejected), each present leaf contributes
its value sequence, and every other field is broadcast from the baseline. -/
def sweep {α : Type} [Field α] [Inhabited α] (log10 exp10 : α → α)
    (baseline : Scenario α) (sw : AerosolParameterSweeps α) :
    Except Err (Ensemble α) :=
  match sw.counts with
  | [] => .error .shapeError
  | c :: cs =>
    if cs.all (fun x => x == c) then
      .ok
        { aerosols := baseline.aerosols
          gases := baseline.gases
          modes := (List.range baseline.modes.length).map (fun j =>
            sweepMode log10 exp10 c (baseline.modes.getD j default)
              (modeSweepAt sw j))
          gas_concs := baseline.gas_concs.map (List.replicate c)
          flux := sweepLeaf log10 exp10 c baseline.flux sw.flux
          relative_humidity :=
            sweepLeaf log10 exp10 c baseline.relative_humidity
              sw.relative_humidity
          temperature :=
            sweepLeaf log10 exp10 c baseline.temperature sw.temperature
          pressure := sweepLeaf log10 exp10 c baseline.pressure sw.pressure
          height := sweepLeaf log10 exp10 c baseline.height sw.height }
    else .error .shapeError

/-- One external-simulator job, reduced to what the harness observes: the
exit code its executable returns. -/
structure Job where
  exit_code : ℤ
  deriving DecidableEq, Inhabited

/-- The outcome recorded for one job. -/
inductive JobStatus where
  | success
  | failed
  deriving DecidableEq

/-- Modelled from the spec: the per-member result record of the execution
harness, keyed by the original member index. -/
structure JobResult where
  index : ℕ
  exit_status : ℤ
  status : JobStatus
  deriving DecidableEq

/-- Modelled from the spec: run the job with member index `i`: a zero exit
code is a success, a non-zero exit code is recorded as a per-job failure. -/
def runJob (jobs : List Job) (i : ℕ) : JobResult :=
  let j := jobs.getD i default
  { index := i
    exit_status := j.exit_code
    status := if j.exit_code = 0 then .success else .failed }

/-- Modelled from the spec: `PoolRunner.run` over a worker pool.  The
bounded worker pool completes jobs in some nondeterministic order; `order`
is that completion order (any permutation of the member indices is
reachable for any pool size), and the result collection appends one record
per completed job.  One job's failure never aborts the others. -/
def poolRun (jobs : List Job) (order : List ℕ) : List JobResult :=
  order.map (runJob jobs)

end Ppe

end Ambrs

namespace Ambrs

open PyModel
open Ppe

theorem except_bind_ok {ε β γ : Type} (a : β) (f : β → Except ε γ) :
    (Except.ok a >>= f : Except ε γ) = f a := rfl

theorem except_bind_error {ε β γ : Type} (e : ε) (f : β → Except ε γ) :
    (Except.error e >>= f : Except ε γ) = .error e := rfl

theorem except_bind_eq_ok {ε β γ : Type} {x : Except ε β} {f : β → Except ε γ}
    {c : γ} : (x >>= f) = .ok c ↔ ∃ b, x = .ok b ∧ f b = .ok c := by
  cases x with
  | ok b => simp [except_bind_ok]
  | error e => simp [except_bind_error]

theorem list_mapM_map {m : Type → Type} [Monad m] [LawfulMonad m]
    {β γ δ : Type} (f : β → γ) (g : γ → m δ) (l : List β) :
    (l.map f).mapM g = l.mapM (fun x => g (f x)) := by
  induction l with
  | nil => rfl
  | cons a l ih => simp only [List.map_cons, List.mapM_cons, ih]

theorem option_mapM_eq_some_map {β γ : Type} {f : β → Option γ} {g : β → γ}
    {l : List β} (h : ∀ x ∈ l, f x = some (g x)) :
    l.mapM f = some (l.map g) := by
  induction l with
  | nil => rfl
  | cons a l ih =>
    rw [List.mapM_cons, h a (List.mem_cons_self a l),
      ih (fun x hx => h x (List.mem_cons_of_mem a hx))]
    rfl

theorem option_mapM_forall_some {β γ : Type} {f : β → Option γ} :
    ∀ {l : List β} {r : List γ}, l.mapM f = some r →
      ∀ x ∈ l, ∃ y, f x = some y := by
  intro l
  induction l with
  | nil => intro r _ x hx; cases hx
  | cons a l ih =>
    intro r h x hx
    rw [List.mapM_cons] at h
    simp only [Option.bind_eq_bind, Option.pure_def, Option.bind_eq_some,
      Option.some.injEq] at h
    obtain ⟨b, hb, bs, hbs, _⟩ := h
    rcases List.mem_cons.mp hx with rfl | hx'
    · exact ⟨b, hb⟩
    · exact ih hbs x hx'

theorem option_mapM_mem {β γ : Type} {f : β → Option γ} :
    ∀ {l : List β} {r : List γ}, l.mapM f = some r →
      ∀ y ∈ r, ∃ x ∈ l, f x = some y := by
  intro l
  induction l with
  | nil =>
    intro r h y hy
    cases h
    cases hy
  | cons a l ih =>
    intro r h y hy
    rw [List.mapM_cons] at h
    simp only [Option.bind_eq_bind, Option.pure_def, Option.bind_eq_some,
      Option.some.injEq] at h
    obtain ⟨b, hb, bs, hbs, rfl⟩ := h
    rcases List.mem_cons.mp hy with rfl | hy'
    · exact ⟨a, List.mem_cons_self a l, hb⟩
    · obtain ⟨x, hx, hfx⟩ := ih hbs y hy'
      exact ⟨x, List.mem_cons_of_mem a hx, hfx⟩

theorem option_mapM_eq_of_pointwise {β γ : Type} {f : β → Option γ}
    {g : β → γ} :
    ∀ {l : List β} {r : List γ}, l.mapM f = some r →
      (∀ x ∈ l, ∀ y, f x = some y → y = g x) → r = l.map g := by
  intro l
  induction l with
  | nil =>
    intro r h _
    cases h
    rfl
  | cons a l ih =>
    intro r h hpt
    rw [List.mapM_cons] at h
    simp only [Option.bind_eq_bind, Option.pure_def, Option.bind_eq_some,
      Option.some.injEq] at h
    obtain ⟨b, hb, bs, hbs, rfl⟩ := h
    rw [List.map_cons,
      ih hbs (fun x hx => hpt x (List.mem_cons_of_mem a hx)),
      hpt a (List.mem_cons_self a l) b hb]

theorem except_mapM_error_mem {ε β γ : Type} {f : β → Except ε γ} :
    ∀ {l : List β} {e : ε}, l.mapM f = .error e →
      ∃ x ∈ l, f x = .error e := by
  intro l
  induction l with
  | nil => intro e h; cases h
  | cons a l ih =>
    intro e h
    rw [List.mapM_cons] at h
    cases hfa : f a with
    | error e' =>
      rw [hfa, except_bind_error] at h
      cases h
      exact ⟨a, List.mem_cons_self a l, hfa⟩
    | ok b =>
      rw [hfa, except_bind_ok] at h
      cases hfl : l.mapM f with
      | error e' =>
        rw [hfl, except_bind_error] at h
        cases h
        obtain ⟨x, hx, hfx⟩ := ih hfl
        exact ⟨x, List.mem_cons_of_mem a hx, hfx⟩
      | ok bs => rw [hfl, except_bind_ok] at h; cases h

theorem except_mapM_ok_exists {ε β γ : Type} {f : β → Except ε γ} :
    ∀ {l : List β}, (∀ x ∈ l, ∃ y, f x = .ok y) →
      ∃ r, l.mapM f = .ok r := by
  intro l
  induction l with
  | nil => intro _; exact ⟨[], rfl⟩
  | cons a l ih =>
    intro h
    obtain ⟨b, hb⟩ := h a (List.mem_cons_self a l)
    obtain ⟨r, hr⟩ := ih (fun x hx => h x (List.mem_cons_of_mem a hx))
    refine ⟨b :: r, ?_⟩
    rw [List.mapM_cons, hb, except_bind_ok, hr, except_bind_ok]
    rfl

theorem except_mapM_ok_forall {ε β γ : Type} {f : β → Except ε γ} :
    ∀ {l : List β} {r : List γ}, l.mapM f = .ok r →
      ∀ x ∈ l, ∃ y, f x = .ok y := by
  intro l
  induction l with
  | nil => intro r _ x hx; cases hx
  | cons a l ih =>
    intro r h x hx
    rw [List.mapM_cons] at h
    cases hfa : f a with
    | error e' => rw [hfa, except_bind_error] at h; cases h
    | ok b =>
      rw [hfa, except_bind_ok] at h
      cases hfl : l.mapM f with
      | error e' => rw [hfl, except_bind_error] at h; cases h
      | ok bs =>
        rcases List.mem_cons.mp hx with rfl | hx'
        · exact ⟨b, hfa⟩
        · exact ih hfl x hx'

theorem except_mapM_ok_mem {ε β γ : Type} {f : β → Except ε γ} :
    ∀ {l : List β} {r : List γ}, l.mapM f = .ok r →
      ∀ y ∈ r, ∃ x ∈ l, f x = .ok y := by
  intro l
  induction l with
  | nil =>
    intro r h y hy
    cases h
    cases hy
  | cons a l ih =>
    intro r h y hy
    rw [List.mapM_cons] at h
    cases hfa : f a with
    | error e' => rw [hfa, except_bind_error] at h; cases h
    | ok b =>
      rw [hfa, except_bind_ok] at h
      cases hfl : l.mapM f with
      | error e' => rw [hfl, except_bind_error] at h; cases h
      | ok bs =>
        rw [hfl, except_bind_ok] at h
        cases h
        rcases List.mem_cons.mp hy with rfl | hy'
        · exact ⟨a, List.mem_cons_self a l, hfa⟩
        · obtain ⟨x, hx, hfx⟩ := ih hfl y hy'
          exact ⟨x, List.mem_cons_of_mem a hx, hfx⟩

theorem list_map_range_getD {β : Type} (l : List β) (d : β) :
    (List.range l.length).map (fun k => l.getD k d) = l := by
  apply List.ext_getElem
  · simp
  · intro k h1 h2
    simp only [List.getElem_map, List.getElem_range]
    exact List.getD_eq_getElem l d h2

theorem get_some_eq_getD {β : Type} {c : List β} {i : ℕ} {y : β} (d : β)
    (h : c.get? i = some y) : y = c.getD i d := by
  rw [List.get?_eq_getElem?] at h
  cases hlt : decide (i < c.length) with
  | true =>
    have hlt' := of_decide_eq_true hlt
    rw [List.getElem?_eq_getElem hlt'] at h
    cases h
    exact (List.getD_eq_getElem c d hlt').symm
  | false =>
    have hge := of_decide_eq_false hlt
    rw [List.getElem?_eq_none (Nat.le_of_not_lt hge)] at h
    cases h

theorem option_some_bind {β γ : Type} (a : β) (f : β → Option γ) :
    (some a >>= f : Option γ) = f a := rfl

theorem map_get?_eq_some {β γ : Type} (f : β → γ) {l : List β} {i : ℕ}
    (hi : i < l.length) : (l.map f).get? i = some (f l[i]) := by
  rw [List.get?_eq_getElem?, List.getElem?_map, List.getElem?_eq_getElem hi]
  rfl

theorem sameLayout_fields {α : Type} {s t : Scenario α}
    (h : sameLayout s t = true) :
    s.aerosols = t.aerosols ∧ s.gases = t.gases ∧
    s.gas_concs.length = t.gas_concs.length ∧
    s.modes.length = t.modes.length ∧
    ∀ (j : ℕ) (h1 : j < s.modes.length) (h2 : j < t.modes.length),
      s.modes[j].name = t.modes[j].name ∧
      s.modes[j].species = t.modes[j].species ∧
      s.modes[j].mass_fractions.length = t.modes[j].mass_fractions.length := by
  unfold sameLayout at h
  simp only [Bool.and_eq_true, beq_iff_eq, List.all_eq_true] at h
  obtain ⟨⟨⟨⟨ha, hg⟩, hgc⟩, hm⟩, hz⟩ := h
  refine ⟨ha, hg, hgc, hm, ?_⟩
  intro j h1 h2
  have hj : j < (s.modes.zip t.modes).length := by
    rw [List.length_zip]
    exact lt_min h1 h2
  have hmem : (s.modes[j], t.modes[j]) ∈ s.modes.zip t.modes := by
    have hx := List.getElem_mem hj
    rw [List.getElem_zip] at hx
    exact hx
  have hp := hz _ hmem
  simp only [Bool.and_eq_true, beq_iff_eq] at hp
  exact ⟨hp.1.1, hp.1.2, hp.2⟩

theorem memberMode_packMode (L : List (Scenario ℚ)) (si : Scenario ℚ)
    (m0 : AerosolModeState ℚ) (i j : ℕ) (hi : i < L.length)
    (hsi : si = L[i]) (hj : j < si.modes.length)
    (hname : m0.name = si.modes[j].name)
    (hspecies : m0.species = si.modes[j].species)
    (hK : m0.mass_fractions.length = si.modes[j].mass_fractions.length) :
    (packMode L m0 j).memberMode i = some si.modes[j] := by
  have hgd : si.modes.getD j default = si.modes[j] :=
    List.getD_eq_getElem si.modes default hj
  have hLi : L[i].modes.getD j default = si.modes[j] := by
    rw [← hsi, hgd]
  simp only [packMode, AerosolModePopulation.memberMode]
  rw [map_get?_eq_some _ hi, option_some_bind,
    map_get?_eq_some _ hi, option_some_bind,
    map_get?_eq_some _ hi, option_some_bind,
    list_mapM_map]
  rw [option_mapM_eq_some_map
    (g := fun k => si.modes[j].mass_fractions.getD k default)
    (fun k _ => by
      rw [map_get?_eq_some _ hi, hLi])]
  rw [option_some_bind, hLi]
  rw [hname, hspecies, hK, list_map_range_getD]
  rfl

theorem member_packed (s0 : Scenario ℚ) (rest : List (Scenario ℚ))
    (hall : ((s0 :: rest).all (fun s => sameLayout s0 s)) = true)
    (i : ℕ) (hi : i < (s0 :: rest).length) :
    (Ensemble.member
      { aerosols := s0.aerosols
        gases := s0.gases
        modes := (List.range s0.modes.length).map (fun j =>
          packMode (s0 :: rest) (s0.modes.getD j default) j)
        gas_concs := (List.range s0.gas_concs.length).map (fun k =>
          (s0 :: rest).map (fun s => s.gas_concs.getD k default))
        flux := (s0 :: rest).map (fun s => s.flux)
        relative_humidity := (s0 :: rest).map (fun s => s.relative_humidity)
        temperature := (s0 :: rest).map (fun s => s.temperature)
        pressure := (s0 :: rest).map (fun s => s.pressure)
        height := (s0 :: rest).map (fun s => s.height) } i) =
    some ((s0 :: rest).getD i default) := by
  have hall' := List.all_eq_true.mp hall
  have hsl : sameLayout s0 ((s0 :: rest)[i]) = true :=
    hall' _ (List.getElem_mem hi)
  obtain ⟨ha, hg, hgc, hm, hmode⟩ := sameLayout_fields hsl
  have hgetD : (s0 :: rest).getD i default = (s0 :: rest)[i] :=
    List.getD_eq_getElem _ default hi
  simp only [Ensemble.member]
  rw [list_mapM_map]
  rw [option_mapM_eq_some_map
    (g := fun j => ((s0 :: rest)[i]).modes.getD j default)
    (fun j hj => by
      have hjm := List.mem_range.mp hj
      have hj2 : j < ((s0 :: rest)[i]).modes.length := hm ▸ hjm
      have hmj := hmode j hjm hj2
      show (packMode (s0 :: rest) (s0.modes.getD j default) j).memberMode i =
        some ((s0 :: rest)[i].modes.getD j default)
      rw [List.getD_eq_getElem _ default hj2]
      exact memberMode_packMode (s0 :: rest) ((s0 :: rest)[i])
        (s0.modes.getD j default) i j hi rfl hj2
        (by rw [List.getD_eq_getElem s0.modes default hjm]; exact hmj.1)
        (by rw [List.getD_eq_getElem s0.modes default hjm]; exact hmj.2.1)
        (by rw [List.getD_eq_getElem s0.modes default hjm]; exact hmj.2.2))]
  rw [option_some_bind, list_mapM_map]
  rw [option_mapM_eq_some_map
    (g := fun k => ((s0 :: rest)[i]).gas_concs.getD k default)
    (fun k _ => by rw [map_get?_eq_some _ hi])]
  rw [option_some_bind,
    map_get?_eq_some _ hi, option_some_bind,
    map_get?_eq_some _ hi, option_some_bind,
    map_get?_eq_some _ hi, option_some_bind,
    map_get?_eq_some _ hi, option_some_bind,
    map_get?_eq_some _ hi, option_some_bind]
  rw [hm, list_map_range_getD]
  rw [hgc, list_map_range_getD]
  rw [hgetD, ha, hg]
  rfl

theorem member_of_ensemble_from_scenarios (scenarios : List (Scenario ℚ))
    (e : Ensemble ℚ) (he : ensemble_from_scenarios scenarios = .ok e) :
    ∀ i < scenarios.length, e.member i = some (scenarios.getD i default) := by
  cases scenarios with
  | nil => intro i hi; exact absurd hi (Nat.not_lt_zero i)
  | cons s0 rest =>
    intro i hi
    simp only [ensemble_from_scenarios] at he
    by_cases hall : ((s0 :: rest).all (fun s => sameLayout s0 s)) = true
    · rw [if_pos hall] at he
      injection he with he'
      subst he'
      exact member_packed s0 rest hall i hi
    · rw [if_neg hall] at he
      cases he

theorem sameLayout_self {α : Type} (s : Scenario α) :
    sameLayout s s = true := by
  have hz : ∀ p ∈ s.modes.zip s.modes,
      (p.1.name == p.2.name && p.1.species == p.2.species &&
        p.1.mass_fractions.length == p.2.mass_fractions.length) = true := by
    intro p hp
    obtain ⟨k, hk, hkp⟩ := List.mem_iff_getElem.mp hp
    rw [List.getElem_zip] at hkp
    rw [← hkp]
    simp
  unfold sameLayout
  rw [List.all_eq_true.mpr hz]
  simp

/-- C4: for scenarios sharing identical species tuples, gas tuples and mode
layout, extracting member `i` from `ensemble_from_scenarios(scenarios)`
returns exactly `scenarios[i]`; in particular packing `n` copies of one
scenario yields an ensemble whose every member equals that scenario. -/
theorem ensemble_from_scenarios_roundtrip :
    (∀ (scenarios : List (Scenario ℚ)) (e : Ensemble ℚ),
      ensemble_from_scenarios scenarios = .ok e →
      ∀ i < scenarios.length,
        e.member i = some (scenarios.getD i default)) ∧
    (∀ (s : Scenario ℚ) (m : ℕ), ∃ e : Ensemble ℚ,
      ensemble_from_scenarios (List.replicate m s) = .ok e ∧
      ∀ i < m, e.member i = some s) := by
  refine ⟨member_of_ensemble_from_scenarios, ?_⟩
  intro s m
  cases m with
  | zero => exact ⟨⟨[], [], [], [], [], [], [], [], []⟩, rfl, by intro i hi; cases hi⟩
  | succ m' =>
    have hall : ((s :: List.replicate m' s).all
        (fun x => sameLayout s x)) = true := by
      rw [List.all_eq_true]
      intro x hx
      rcases List.mem_cons.mp hx with rfl | hx'
      · exact sameLayout_self x
      · rw [List.eq_of_mem_replicate hx']
        exact sameLayout_self s
    have hok : ensemble_from_scenarios (List.replicate (m' + 1) s) =
        .ok { aerosols := s.aerosols
              gases := s.gases
              modes := (List.range s.modes.length).map (fun j =>
                packMode (s :: List.replicate m' s)
                  (s.modes.getD j default) j)
              gas_concs := (List.range s.gas_concs.length).map (fun k =>
                (s :: List.replicate m' s).map
                  (fun x => x.gas_concs.getD k default))
              flux := (s :: List.replicate m' s).map (fun x => x.flux)
              relative_humidity :=
                (s :: List.replicate m' s).map
                  (fun x => x.relative_humidity)
              temperature :=
                (s :: List.replicate m' s).map (fun x => x.temperature)
              pressure := (s :: List.replicate m' s).map (fun x => x.pressure)
              height := (s :: List.replicate m' s).map (fun x => x.height) } := by
      rw [List.replicate_succ]
      simp only [ensemble_from_scenarios]
      rw [if_pos hall]
    refine ⟨_, hok, ?_⟩
    intro i hi
    have hlen : i < (List.replicate (m' + 1) s).length := by
      rw [List.length_replicate]
      exact hi
    have h := member_of_ensemble_from_scenarios _ _ hok i hlen
    have hval : (List.replicate (m' + 1) s).getD i default = s := by
      rw [List.getD_eq_getElem _ default hlen]
      exact List.eq_of_mem_replicate (List.getElem_mem hlen)
    rw [hval] at h
    exact h

/-- Witness for C4: packing two concrete scenarios and extracting member 1
returns the second scenario. -/
theorem ensemble_from_scenarios_roundtrip_witness :
    ∃ e : Ensemble ℚ,
      ensemble_from_scenarios
        [(⟨["a"], ["g"], [⟨"m", ["a"], 1, 2, 3, [1]⟩], [4], 5, 6, 7, 8, 9⟩ :
           Scenario ℚ),
         (⟨["a"], ["g"], [⟨"m", ["a"], 10, 20, 30, [1]⟩], [40], 50, 60, 70,
           80, 90⟩ : Scenario ℚ)] = .ok e ∧
      e.member 1 = some
        (⟨["a"], ["g"], [⟨"m", ["a"], 10, 20, 30, [1]⟩], [40], 50, 60, 70,
          80, 90⟩ : Scenario ℚ) := by
  refine ⟨_, rfl, ?_⟩
  exact ensemble_from_scenarios_roundtrip.1
    [(⟨["a"], ["g"], [⟨"m", ["a"], 1, 2, 3, [1]⟩], [4], 5, 6, 7, 8, 9⟩ :
       Scenario ℚ),
     (⟨["a"], ["g"], [⟨"m", ["a"], 10, 20, 30, [1]⟩], [40], 50, 60, 70,
       80, 90⟩ : Scenario ℚ)] _ rfl 1 (by decide)

theorem lhsLeaf_error_eq {n : ℕ} {leaf : SpecLeaf} {e : Err}
    (h : lhsLeaf n leaf = .error e) : e = .unsupportedDistributionError := by
  cases leaf with
  | fixed v => cases h
  | dist d =>
    simp only [lhsLeaf] at h
    cases hic : d.icdf with
    | none =>
      rw [hic] at h
      injection h with h
      exact h.symm
    | some f => rw [hic] at h; cases h

theorem lhsLeaf_ok_length {n : ℕ} {leaf : SpecLeaf} {vs : List ℚ}
    (h : lhsLeaf n leaf = .ok vs) : vs.length = n := by
  cases leaf with
  | fixed v =>
    injection h with h
    rw [← h, List.length_replicate]
  | dist d =>
    simp only [lhsLeaf] at h
    cases hic : d.icdf with
    | none => rw [hic] at h; cases h
    | some f =>
      rw [hic] at h
      injection h with h
      rw [← h, List.length_map, List.length_range]

theorem lhsLeaf_supports_of_ok {n : ℕ} {leaf : SpecLeaf} {vs : List ℚ}
    (h : lhsLeaf n leaf = .ok vs) : leaf.supportsICDF = true := by
  cases leaf with
  | fixed v => rfl
  | dist d =>
    simp only [lhsLeaf] at h
    cases hic : d.icdf with
    | none => rw [hic] at h; cases h
    | some f =>
      show d.icdf.isSome = true
      rw [hic]
      rfl

theorem lhsLeaf_ok_of_supports {n : ℕ} {leaf : SpecLeaf}
    (h : leaf.supportsICDF = true) : ∃ vs, lhsLeaf n leaf = .ok vs := by
  cases leaf with
  | fixed v => exact ⟨List.replicate n v, rfl⟩
  | dist d =>
    obtain ⟨f, hf⟩ := Option.isSome_iff_exists.mp h
    refine ⟨(List.range n).map (fun r =>
      f (((d.lhsPerm n r : ℚ) + d.jitter r) / (n : ℚ))), ?_⟩
    simp only [lhsLeaf]
    rw [hf]

theorem lhsMode_error_eq {n : ℕ} {md : Ppe.AerosolModeDistribution} {e : Err}
    (h : lhsMode n md = .error e) : e = .unsupportedDistributionError := by
  unfold lhsMode at h
  cases h1 : lhsLeaf n md.number with
  | error e1 =>
    rw [h1, except_bind_error] at h
    injection h with h
    exact h ▸ lhsLeaf_error_eq h1
  | ok v1 =>
    rw [h1, except_bind_ok] at h
    cases h2 : lhsLeaf n md.geom_mean_diam with
    | error e2 =>
      rw [h2, except_bind_error] at h
      injection h with h
      exact h ▸ lhsLeaf_error_eq h2
    | ok v2 =>
      rw [h2, except_bind_ok] at h
      cases h3 : lhsLeaf n md.log10_geom_std_dev with
      | error e3 =>
        rw [h3, except_bind_error] at h
        injection h with h
        exact h ▸ lhsLeaf_error_eq h3
      | ok v3 =>
        rw [h3, except_bind_ok] at h
        cases h4 : md.mass_fractions.mapM (lhsLeaf n) with
        | error e4 =>
          rw [h4, except_bind_error] at h
          injection h with h
          obtain ⟨x, _, hx⟩ := except_mapM_error_mem h4
          exact h ▸ lhsLeaf_error_eq hx
        | ok v4 => rw [h4, except_bind_ok] at h; cases h

theorem lhsMode_supports_of_ok {n : ℕ} {md : Ppe.AerosolModeDistribution}
    {mp : AerosolModePopulation ℚ} (h : lhsMode n md = .ok mp) :
    ∀ leaf ∈ md.leaves, leaf.supportsICDF = true := by
  unfold lhsMode at h
  cases h1 : lhsLeaf n md.number with
  | error e1 => rw [h1, except_bind_error] at h; cases h
  | ok v1 =>
    rw [h1, except_bind_ok] at h
    cases h2 : lhsLeaf n md.geom_mean_diam with
    | error e2 => rw [h2, except_bind_error] at h; cases h
    | ok v2 =>
      rw [h2, except_bind_ok] at h
      cases h3 : lhsLeaf n md.log10_geom_std_dev with
      | error e3 => rw [h3, except_bind_error] at h; cases h
      | ok v3 =>
        rw [h3, except_bind_ok] at h
        cases h4 : md.mass_fractions.mapM (lhsLeaf n) with
        | error e4 => rw [h4, except_bind_error] at h; cases h
        | ok v4 =>
          intro leaf hleaf
          rcases List.mem_cons.mp hleaf with rfl | hl2
          · exact lhsLeaf_supports_of_ok h1
          rcases List.mem_cons.mp hl2 with rfl | hl3
          · exact lhsLeaf_supports_of_ok h2
          rcases List.mem_cons.mp hl3 with rfl | hl4
          · exact lhsLeaf_supports_of_ok h3
          obtain ⟨vs, hvs⟩ := except_mapM_ok_forall h4 leaf hl4
          exact lhsLeaf_supports_of_ok hvs

theorem lhsMode_ok_of_supports {n : ℕ} {md : Ppe.AerosolModeDistribution}
    (h : ∀ leaf ∈ md.leaves, leaf.supportsICDF = true) :
    ∃ mp, lhsMode n md = .ok mp := by
  have hnum := lhsLeaf_ok_of_supports (n := n)
    (h md.number (by simp [Ppe.AerosolModeDistribution.leaves]))
  have hgmd := lhsLeaf_ok_of_supports (n := n)
    (h md.geom_mean_diam (by simp [Ppe.AerosolModeDistribution.leaves]))
  have hlgsd := lhsLeaf_ok_of_supports (n := n)
    (h md.log10_geom_std_dev (by simp [Ppe.AerosolModeDistribution.leaves]))
  obtain ⟨v1, h1⟩ := hnum
  obtain ⟨v2, h2⟩ := hgmd
  obtain ⟨v3, h3⟩ := hlgsd
  obtain ⟨v4, h4⟩ := except_mapM_ok_exists (f := lhsLeaf n)
    (l := md.mass_fractions) (fun leaf hleaf =>
      lhsLeaf_ok_of_supports (h leaf (by
        simp [Ppe.AerosolModeDistribution.leaves]
        right; right; right; exact hleaf)))
  refine ⟨⟨md.name, md.species, v1, v2, v3, normalizeMassFractions v4⟩, ?_⟩
  unfold lhsMode
  rw [h1, except_bind_ok, h2, except_bind_ok, h3, except_bind_ok, h4,
    except_bind_ok]
  rfl

theorem lhs_error_eq {spec : EnsembleSpecification} {n : ℤ} (hn : 0 < n)
    {e : Err} (h : lhs spec n = .error e) :
    e = .unsupportedDistributionError := by
  unfold lhs at h
  rw [if_neg (not_le.mpr hn)] at h
  cases h1 : spec.modes.mapM (lhsMode n.toNat) with
  | error e1 =>
    rw [h1, except_bind_error] at h
    injection h with h
    obtain ⟨x, _, hx⟩ := except_mapM_error_mem h1
    exact h ▸ lhsMode_error_eq hx
  | ok ms =>
    rw [h1, except_bind_ok] at h
    cases h2 : spec.gas_concs.mapM (lhsLeaf n.toNat) with
    | error e2 =>
      rw [h2, except_bind_error] at h
      injection h with h
      obtain ⟨x, _, hx⟩ := except_mapM_error_mem h2
      exact h ▸ lhsLeaf_error_eq hx
    | ok gcs =>
      rw [h2, except_bind_ok] at h
      cases h3 : lhsLeaf n.toNat spec.flux with
      | error e3 =>
        rw [h3, except_bind_error] at h
        injection h with h
        exact h ▸ lhsLeaf_error_eq h3
      | ok v3 =>
        rw [h3, except_bind_ok] at h
        cases h4 : lhsLeaf n.toNat spec.relative_humidity with
        | error e4 =>
          rw [h4, except_bind_error] at h
          injection h with h
          exact h ▸ lhsLeaf_error_eq h4
        | ok v4 =>
          rw [h4, except_bind_ok] at h
          cases h5 : lhsLeaf n.toNat spec.temperature with
          | error e5 =>
            rw [h5, except_bind_error] at h
            injection h with h
            exact h ▸ lhsLeaf_error_eq h5
          | ok v5 =>
            rw [h5, except_bind_ok] at h
            cases h6 : lhsLeaf n.toNat spec.pressure with
            | error e6 =>
              rw [h6, except_bind_error] at h
              injection h with h
              exact h ▸ lhsLeaf_error_eq h6
            | ok v6 =>
              rw [h6, except_bind_ok] at h
              cases h7 : lhsLeaf n.toNat spec.height with
              | error e7 =>
                rw [h7, except_bind_error] at h
                injection h with h
                exact h ▸ lhsLeaf_error_eq h7
              | ok v7 => rw [h7, except_bind_ok] at h; cases h

theorem lhs_ok_elim {spec : EnsembleSpecification} {n : ℤ}
    {e : Ensemble ℚ} (hn : 0 < n) (h : lhs spec n = .ok e) :
    (spec.leaves.all SpecLeaf.supportsICDF) = true ∧ e.len = n.toNat := by
  unfold lhs at h
  rw [if_neg (not_le.mpr hn)] at h
  cases h1 : spec.modes.mapM (lhsMode n.toNat) with
  | error e1 => rw [h1, except_bind_error] at h; cases h
  | ok ms =>
  rw [h1, except_bind_ok] at h
  cases h2 : spec.gas_concs.mapM (lhsLeaf n.toNat) with
  | error e2 => rw [h2, except_bind_error] at h; cases h
  | ok gcs =>
  rw [h2, except_bind_ok] at h
  cases h3 : lhsLeaf n.toNat spec.flux with
  | error e3 => rw [h3, except_bind_error] at h; cases h
  | ok v3 =>
  rw [h3, except_bind_ok] at h
  cases h4 : lhsLeaf n.toNat spec.relative_humidity with
  | error e4 => rw [h4, except_bind_error] at h; cases h
  | ok v4 =>
  rw [h4, except_bind_ok] at h
  cases h5 : lhsLeaf n.toNat spec.temperature with
  | error e5 => rw [h5, except_bind_error] at h; cases h
  | ok v5 =>
  rw [h5, except_bind_ok] at h
  cases h6 : lhsLeaf n.toNat spec.pressure with
  | error e6 => rw [h6, except_bind_error] at h; cases h
  | ok v6 =>
  rw [h6, except_bind_ok] at h
  cases h7 : lhsLeaf n.toNat spec.height with
  | error e7 => rw [h7, except_bind_error] at h; cases h
  | ok v7 =>
  rw [h7, except_bind_ok] at h
  injection h with h
  constructor
  · rw [EnsembleSpecification.leaves, List.all_eq_true]
    intro leaf hleaf
    rcases List.mem_append.mp hleaf with hleft | hsingles
    · rcases List.mem_append.mp hleft with hmodes | hgas
      · obtain ⟨l, hl, hin⟩ := List.mem_flatten.mp hmodes
        obtain ⟨md, hmd, rfl⟩ := List.mem_map.mp hl
        obtain ⟨mp, hmp⟩ := except_mapM_ok_forall h1 md hmd
        exact lhsMode_supports_of_ok hmp leaf hin
      · obtain ⟨vs, hvs⟩ := except_mapM_ok_forall h2 leaf hgas
        exact lhsLeaf_supports_of_ok hvs
    · rcases List.mem_cons.mp hsingles with rfl | hs2
      · exact lhsLeaf_supports_of_ok h3
      rcases List.mem_cons.mp hs2 with rfl | hs3
      · exact lhsLeaf_supports_of_ok h4
      rcases List.mem_cons.mp hs3 with rfl | hs4
      · exact lhsLeaf_supports_of_ok h5
      rcases List.mem_cons.mp hs4 with rfl | hs5
      · exact lhsLeaf_supports_of_ok h6
      rcases List.mem_cons.mp hs5 with rfl | hs6
      · exact lhsLeaf_supports_of_ok h7
      cases hs6
  · rw [← h]
    show v3.length = n.toNat
    exact lhsLeaf_ok_length h3

theorem lhs_ok_of_supports {spec : EnsembleSpecification} {n : ℤ}
    (hn : 0 < n) (hall : (spec.leaves.all SpecLeaf.supportsICDF) = true) :
    ∃ e, lhs spec n = .ok e := by
  have hall' := List.all_eq_true.mp hall
  have hsub : ∀ leaf : SpecLeaf,
      (leaf = spec.flux ∨ leaf = spec.relative_humidity ∨
       leaf = spec.temperature ∨ leaf = spec.pressure ∨
       leaf = spec.height) → leaf.supportsICDF = true := by
    intro leaf hor
    refine hall' leaf ?_
    rw [EnsembleSpecification.leaves]
    refine List.mem_append.mpr (Or.inr ?_)
    rcases hor with rfl | rfl | rfl | rfl | rfl <;> simp
  obtain ⟨ms, h1⟩ := except_mapM_ok_exists (f := lhsMode n.toNat)
    (l := spec.modes) (fun md hmd =>
      lhsMode_ok_of_supports (fun leaf hleaf =>
        hall' leaf (by
          rw [EnsembleSpecification.leaves]
          refine List.mem_append.mpr (Or.inl ?_)
          refine List.mem_append.mpr (Or.inl ?_)
          exact List.mem_flatten.mpr
            ⟨md.leaves, List.mem_map.mpr ⟨md, hmd, rfl⟩, hleaf⟩)))
  obtain ⟨gcs, h2⟩ := except_mapM_ok_exists (f := lhsLeaf n.toNat)
    (l := spec.gas_concs) (fun leaf hleaf =>
      lhsLeaf_ok_of_supports (hall' leaf (by
        rw [EnsembleSpecification.leaves]
        refine List.mem_append.mpr (Or.inl ?_)
        exact List.mem_append.mpr (Or.inr hleaf))))
  obtain ⟨v3, h3⟩ := lhsLeaf_ok_of_supports (n := n.toNat)
    (hsub spec.flux (Or.inl rfl))
  obtain ⟨v4, h4⟩ := lhsLeaf_ok_of_supports (n := n.toNat)
    (hsub spec.relative_humidity (Or.inr (Or.inl rfl)))
  obtain ⟨v5, h5⟩ := lhsLeaf_ok_of_supports (n := n.toNat)
    (hsub spec.temperature (Or.inr (Or.inr (Or.inl rfl))))
  obtain ⟨v6, h6⟩ := lhsLeaf_ok_of_supports (n := n.toNat)
    (hsub spec.pressure (Or.inr (Or.inr (Or.inr (Or.inl rfl)))))
  obtain ⟨v7, h7⟩ := lhsLeaf_ok_of_supports (n := n.toNat)
    (hsub spec.height (Or.inr (Or.inr (Or.inr (Or.inr rfl)))))
  refine ⟨⟨spec.aerosols, spec.gases, ms, gcs, v3, v4, v5, v6, v7⟩, ?_⟩
  unfold lhs
  rw [if_neg (not_le.mpr hn), h1, except_bind_ok, h2, except_bind_ok, h3,
    except_bind_ok, h4, except_bind_ok, h5, except_bind_ok, h6,
    except_bind_ok, h7, except_bind_ok]
  rfl

theorem sum_map_div (l : List ℚ) (S : ℚ) :
    (l.map (fun x => x / S)).sum = l.sum / S := by
  induction l with
  | nil => simp
  | cons a l ih => simp [ih, add_div]

theorem normalize_row (cols : List (List ℚ)) (i : ℕ) :
    (normalizeMassFractions cols).map (fun c => c.getD i 0) =
      cols.map (fun c => c.getD i 0 / rowSum cols i) := by
  rw [normalizeMassFractions, List.map_map]
  apply List.map_congr_left
  intro c _
  show (c.mapIdx (fun j x => x / rowSum cols j)).getD i 0 =
    c.getD i 0 / rowSum cols i
  rcases lt_or_ge i c.length with hlt | hge
  · have hlt' : i < (c.mapIdx (fun j x => x / rowSum cols j)).length := by
      rw [List.length_mapIdx]
      exact hlt
    rw [List.getD_eq_getElem _ _ hlt', List.getElem_mapIdx,
      List.getD_eq_getElem _ _ hlt]
  · have hge' : (c.mapIdx (fun j x => x / rowSum cols j)).length ≤ i := by
      rw [List.length_mapIdx]
      exact hge
    rw [List.getD_eq_default _ _ hge', List.getD_eq_default _ _ hge,
      zero_div]

theorem normalize_rowSum_eq_one (cols : List (List ℚ)) (i : ℕ)
    (h : rowSum cols i ≠ 0) :
    rowSum (normalizeMassFractions cols) i = 1 := by
  rw [rowSum, normalize_row]
  have : (cols.map (fun c => c.getD i 0 / rowSum cols i)) =
      ((cols.map (fun c => c.getD i 0)).map (fun x => x / rowSum cols i)) := by
    rw [List.map_map]
    rfl
  rw [this, sum_map_div]
  rw [← rowSum]
  exact div_self h

theorem member_modes_elim {α : Type} {e : Ensemble α} {i : ℕ}
    {s : Scenario α} (h : e.member i = some s) :
    e.modes.mapM (fun m => m.memberMode i) = some s.modes := by
  simp only [Ensemble.member, Option.bind_eq_bind, Option.bind_eq_some,
    Option.pure_def, Option.some.injEq] at h
  obtain ⟨ms, hms, gcs, hgcs, fl, hfl, rh, hrh, T, hT, p, hp, hh, hhh, hs⟩ := h
  rw [← hs]
  exact hms

theorem memberMode_mass_fractions_elim {α : Type}
    {mp : AerosolModePopulation α} {i : ℕ} {mo : AerosolModeState α}
    (h : mp.memberMode i = some mo) :
    mp.mass_fractions.mapM (fun c => c.get? i) = some mo.mass_fractions := by
  simp only [AerosolModePopulation.memberMode, Option.bind_eq_bind,
    Option.bind_eq_some, Option.pure_def, Option.some.injEq] at h
  obtain ⟨nu, hnu, gm, hgm, lg, hlg, mfs, hmfs, hmo⟩ := h
  rw [← hmo]
  exact hmfs

theorem mass_fractions_row_of_memberMode {α : Type} [Inhabited α] (d : α)
    {mp : AerosolModePopulation α} {i : ℕ} {mo : AerosolModeState α}
    (h : mp.memberMode i = some mo) :
    mo.mass_fractions = mp.mass_fractions.map (fun c => c.getD i d) := by
  have hm := memberMode_mass_fractions_elim h
  exact option_mapM_eq_of_pointwise hm (fun c _ y hy => get_some_eq_getD d hy)

theorem get_some_lt_length {α : Type} {l : List α} {i : ℕ} {y : α}
    (h : l.get? i = some y) : i < l.length := by
  rw [List.get?_eq_getElem?] at h
  by_contra hge
  rw [List.getElem?_eq_none (Nat.le_of_not_lt hge)] at h
  cases h

theorem memberMode_number_elim {α : Type} {mp : AerosolModePopulation α}
    {i : ℕ} {mo : AerosolModeState α} (h : mp.memberMode i = some mo) :
    mp.number.get? i = some mo.number := by
  simp only [AerosolModePopulation.memberMode, Option.bind_eq_bind,
    Option.bind_eq_some, Option.pure_def, Option.some.injEq] at h
  obtain ⟨nu, hnu, gm, hgm, lg, hlg, mfs, hmfs, hmo⟩ := h
  rw [← hmo]
  exact hnu

theorem sampleLeaf_length (n : ℕ) (leaf : SpecLeaf) :
    (sampleLeaf n leaf).length = n := by
  cases leaf <;> simp [sampleLeaf]

theorem replicate_get_some {α : Type} {c : ℕ} {x y : α} {i : ℕ}
    (h : (List.replicate c x).get? i = some y) : y = x := by
  have := get_some_eq_getD x h
  rw [this]
  rcases lt_or_ge i (List.replicate c x).length with hlt | hge
  · rw [List.getD_eq_getElem _ _ hlt, List.getElem_replicate]
  · rw [List.getD_eq_default _ _ hge]

theorem values_length {α : Type} [Field α] (L E : α → α)
    (ps : ParameterSweep α) : (ps.values L E).length = ps.count := by
  cases ps <;>
    simp only [ParameterSweep.values, ParameterSweep.count, List.length_map,
      List.length_range]

theorem map_range_getD_lt {β : Type} (F : ℕ → β) (M j : ℕ) (d : β)
    (hj : j < M) : ((List.range M).map F).getD j d = F j := by
  have hj' : j < ((List.range M).map F).length := by
    rw [List.length_map, List.length_range]
    exact hj
  rw [List.getD_eq_getElem _ _ hj', List.getElem_map, List.getElem_range]

theorem replicate_getD_lt {α : Type} {c i : ℕ} (x d : α) (h : i < c) :
    (List.replicate c x).getD i d = x := by
  rw [List.getD_eq_getElem _ _ (by rw [List.length_replicate]; exact h),
    List.getElem_replicate]

theorem sweep_ok_elim {α : Type} [Field α] [Inhabited α] {L E : α → α}
    {baseline : Scenario α} {sw : AerosolParameterSweeps α} {e : Ensemble α}
    (h : sweep L E baseline sw = .ok e) :
    ∃ c cs, sw.counts = c :: cs ∧ (∀ x ∈ sw.counts, x = c) ∧
      e = ⟨baseline.aerosols, baseline.gases,
        (List.range baseline.modes.length).map (fun j =>
          sweepMode L E c (baseline.modes.getD j default) (modeSweepAt sw j)),
        baseline.gas_concs.map (List.replicate c),
        sweepLeaf L E c baseline.flux sw.flux,
        sweepLeaf L E c baseline.relative_humidity sw.relative_humidity,
        sweepLeaf L E c baseline.temperature sw.temperature,
        sweepLeaf L E c baseline.pressure sw.pressure,
        sweepLeaf L E c baseline.height sw.height⟩ := by
  unfold sweep at h
  split at h
  · cases h
  · rename_i c cs heq
    split at h
    case isFalse => cases h
    rename_i hall
    injection h with h
    refine ⟨c, cs, heq, ?_, h.symm⟩
    intro x hx
    rw [heq] at hx
    rcases List.mem_cons.mp hx with rfl | hx'
    · rfl
    · exact eq_of_beq (List.all_eq_true.mp hall x hx')

theorem member_elim_full {α : Type} {e : Ensemble α} {i : ℕ}
    {s : Scenario α} (h : e.member i = some s) :
    e.modes.mapM (fun m => m.memberMode i) = some s.modes ∧
    e.gas_concs.mapM (fun c => c.get? i) = some s.gas_concs ∧
    e.flux.get? i = some s.flux ∧
    e.relative_humidity.get? i = some s.relative_humidity ∧
    e.temperature.get? i = some s.temperature ∧
    e.pressure.get? i = some s.pressure ∧
    e.height.get? i = some s.height := by
  simp only [Ensemble.member, Option.bind_eq_bind, Option.bind_eq_some,
    Option.pure_def, Option.some.injEq] at h
  obtain ⟨ms, hms, gcs, hgcs, fl, hfl, rh, hrh, T, hT, p, hp, hh, hhh, hs⟩ := h
  rw [← hs]
  exact ⟨hms, hgcs, hfl, hrh, hT, hp, hhh⟩

theorem memberMode_det {α : Type} [Inhabited α]
    {mp : AerosolModePopulation α} {i : ℕ} {mo : AerosolModeState α}
    (h : mp.memberMode i = some mo) : mo = mp.rowAt i := by
  simp only [AerosolModePopulation.memberMode, Option.bind_eq_bind,
    Option.bind_eq_some, Option.pure_def, Option.some.injEq] at h
  obtain ⟨nu, hnu, gm, hgm, lg, hlg, mfs, hmfs, hmo⟩ := h
  have h1 : nu = mp.number.getD i default := get_some_eq_getD default hnu
  have h2 : gm = mp.geom_mean_diam.getD i default :=
    get_some_eq_getD default hgm
  have h3 : lg = mp.log10_geom_std_dev.getD i default :=
    get_some_eq_getD default hlg
  have h4 : mfs = mp.mass_fractions.map (fun c => c.getD i default) :=
    option_mapM_eq_of_pointwise hmfs
      (fun c _ y hy => get_some_eq_getD default hy)
  rw [← hmo, h1, h2, h3, h4]
  rfl

theorem member_modes_det {α : Type} [Inhabited α] {e : Ensemble α} {i : ℕ}
    {s : Scenario α} (h : e.member i = some s) :
    s.modes = e.modes.map (fun mp => mp.rowAt i) := by
  have hms := member_modes_elim h
  exact option_mapM_eq_of_pointwise hms (fun mp _ mo hmo => memberMode_det hmo)

theorem flux_count_mem {α : Type} {sw : AerosolParameterSweeps α}
    {ps : ParameterSweep α} (hf : sw.flux = some ps) :
    ps.count ∈ sw.counts := by
  simp [AerosolParameterSweeps.counts, hf]

theorem sweep_flux_length {α : Type} [Field α] (L E : α → α) {c : ℕ}
    (b : α) {sw : AerosolParameterSweeps α}
    (hall : ∀ x ∈ sw.counts, x = c) :
    (sweepLeaf L E c b sw.flux).length = c := by
  cases hf : sw.flux with
  | none => simp [sweepLeaf]
  | some ps =>
    have hc : ps.count = c := hall _ (flux_count_mem hf)
    simp [sweepLeaf, values_length, hc]

/-- C3 counterexample: the linear sweep of temperature from 273 to 373 over
100 steps never attains the stop value 373 (its last member is 372), so a
swept leaf does not span `[start, stop]` inclusive as the claim states. -/
theorem sweep_linear_values_exclude_stop :
    ((373 : ℝ) ∉ (ParameterSweep.linear (273:ℝ) 373 100).values
      (Real.logb 10) (fun x => (10:ℝ)^x)) ∧
    ((ParameterSweep.linear (273:ℝ) 373 100).values
      (Real.logb 10) (fun x => (10:ℝ)^x)).getD 99 0 = 372 := by
  constructor
  · intro hmem
    rw [ParameterSweep.values] at hmem
    obtain ⟨i, hi, hval⟩ := List.mem_map.mp hmem
    have hi' := List.mem_range.mp hi
    rw [show ((373:ℝ) - 273) / ((100:ℕ):ℝ) = 1 by norm_num, mul_one] at hval
    have hi100 : (i : ℝ) = 100 := by linarith
    have : i = 100 := by exact_mod_cast hi100
    omega
  · rw [ParameterSweep.values,
      map_range_getD_lt _ _ _ _ (by norm_num)]
    norm_num

/-- C3 amended: for a sweep whose present leaves all declare the same count
`c`, the resulting ensemble has length `c`; member `i` of a swept
`linear(a, b, cnt)` temperature leaf equals `a + i*(b-a)/cnt` within 1e-12;
member `i` of a swept `logarithmic(a, b, cnt)` mode number leaf satisfies
`log10(value) = log10(a) + i*(log10(b)-log10(a))/cnt` within 1e-12; the
value sequences are strictly increasing for `a < b` (with `0 < a` in the
logarithmic case) and span `[a, b)` — `a` is attained, `b` is not; and
every field absent from the sweep tree equals the baseline exactly at
every member. -/
theorem sweep_trajectory :
    (∀ (baseline : Scenario ℝ) (sw : AerosolParameterSweeps ℝ)
       (e : Ensemble ℝ) (c : ℕ),
      sweep (Real.logb 10) (fun x => (10:ℝ)^x) baseline sw = .ok e →
      c ∈ sw.counts → e.len = c) ∧
    (∀ (baseline : Scenario ℝ) (sw : AerosolParameterSweeps ℝ)
       (e : Ensemble ℝ) (i : ℕ) (s : Scenario ℝ) (a b : ℝ) (cnt : ℕ),
      sweep (Real.logb 10) (fun x => (10:ℝ)^x) baseline sw = .ok e →
      sw.temperature = some (.linear a b cnt) →
      e.member i = some s →
      |s.temperature - (a + (i:ℝ) * ((b - a)/(cnt:ℝ)))| < 1/10^12) ∧
    (∀ (baseline : Scenario ℝ) (sw : AerosolParameterSweeps ℝ)
       (e : Ensemble ℝ) (i j : ℕ) (s : Scenario ℝ)
       (sz : AerosolModalSizeParameterSweeps ℝ)
       (ms : AerosolModeParameterSweeps ℝ) (a b : ℝ) (cnt : ℕ),
      sweep (Real.logb 10) (fun x => (10:ℝ)^x) baseline sw = .ok e →
      sw.size = some sz → sz.modes.getD j none = some ms →
      ms.number = some (.logarithmic a b cnt) →
      e.member i = some s → j < baseline.modes.length →
      |Real.logb 10 ((s.modes.getD j default).number) -
        (Real.logb 10 a + (i:ℝ) *
          ((Real.logb 10 b - Real.logb 10 a)/(cnt:ℝ)))| < 1/10^12) ∧
    (∀ (a b : ℝ) (cnt : ℕ), a < b →
      ((ParameterSweep.linear a b cnt).values (Real.logb 10)
        (fun x => (10:ℝ)^x)).Pairwise (· < ·) ∧
      (∀ x ∈ (ParameterSweep.linear a b cnt).values (Real.logb 10)
        (fun x => (10:ℝ)^x), a ≤ x ∧ x < b) ∧
      (0 < cnt → a ∈ (ParameterSweep.linear a b cnt).values (Real.logb 10)
        (fun x => (10:ℝ)^x))) ∧
    (∀ (a b : ℝ) (cnt : ℕ), 0 < a → a < b →
      ((ParameterSweep.logarithmic a b cnt).values (Real.logb 10)
        (fun x => (10:ℝ)^x)).Pairwise (· < ·)) ∧
    (∀ (baseline : Scenario ℝ) (sw : AerosolParameterSweeps ℝ)
       (e : Ensemble ℝ) (i : ℕ) (s : Scenario ℝ),
      sweep (Real.logb 10) (fun x => (10:ℝ)^x) baseline sw = .ok e →
      e.member i = some s →
      (sw.temperature = none → s.temperature = baseline.temperature) ∧
      (sw.flux = none → s.flux = baseline.flux) ∧
      (sw.relative_humidity = none →
        s.relative_humidity = baseline.relative_humidity) ∧
      (sw.pressure = none → s.pressure = baseline.pressure) ∧
      (sw.height = none → s.height = baseline.height) ∧
      s.gas_concs = baseline.gas_concs ∧
      (∀ j < baseline.modes.length, modeSweepAt sw j = none →
        s.modes.getD j default = baseline.modes.getD j default)) := by
  refine ⟨?_, ?_, ?_, ?_, ?_, ?_⟩
  · intro baseline sw e c hok hcmem
    obtain ⟨c0, cs0, heq, hall, he⟩ := sweep_ok_elim hok
    subst he
    rw [hall c hcmem]
    exact sweep_flux_length _ _ baseline.flux hall
  · intro baseline sw e i s a b cnt hok hT hmem
    obtain ⟨c0, cs0, heq, hall, he⟩ := sweep_ok_elim hok
    subst he
    have hfull := member_elim_full hmem
    have h2 : (sweepLeaf (Real.logb 10) (fun x => (10:ℝ)^x) c0
        baseline.temperature sw.temperature).get? i = some s.temperature :=
      hfull.2.2.2.2.1
    rw [hT] at h2
    have h3 : ((ParameterSweep.linear a b cnt).values (Real.logb 10)
        (fun x => (10:ℝ)^x)).get? i = some s.temperature := h2
    have hival := get_some_eq_getD 0 h3
    have hilt := get_some_lt_length h3
    rw [values_length] at hilt
    simp only [ParameterSweep.count] at hilt
    rw [hival]
    simp only [ParameterSweep.values]
    rw [map_range_getD_lt _ _ _ _ hilt, sub_self, abs_zero]
    norm_num
  · intro baseline sw e i j s sz ms a b cnt hok hsz hjms hn hmem hjlen
    obtain ⟨c0, cs0, heq, hall, he⟩ := sweep_ok_elim hok
    subst he
    have hfull := member_elim_full hmem
    have hic : i < c0 := lt_of_lt_of_eq (get_some_lt_length hfull.2.2.1)
      (sweep_flux_length _ _ baseline.flux hall)
    have hjlt : j < sz.modes.length := by
      by_contra hge
      rw [List.getD_eq_default _ _ (Nat.le_of_not_lt hge)] at hjms
      cases hjms
    have hcnt : cnt = c0 := by
      apply hall
      have hmem_some : some ms ∈ sz.modes := by
        rw [List.getD_eq_getElem _ _ hjlt] at hjms
        rw [← hjms]
        exact List.getElem_mem hjlt
      have hcnt_ms : cnt ∈ ms.counts := by
        rw [AerosolModeParameterSweeps.counts, hn]
        exact List.mem_append.mpr (Or.inl (List.mem_append.mpr (Or.inl
          (List.mem_singleton.mpr rfl))))
      rw [AerosolParameterSweeps.counts, hsz]
      refine List.mem_append.mpr (Or.inl (List.mem_append.mpr (Or.inl
        (List.mem_append.mpr (Or.inl (List.mem_append.mpr (Or.inl
        (List.mem_append.mpr (Or.inl ?_)))))))))
      exact List.mem_flatten.mpr ⟨ms.counts,
        List.mem_map.mpr ⟨some ms, hmem_some, rfl⟩, hcnt_ms⟩
    have hsmodes := member_modes_det hmem
    have hmsw : modeSweepAt sw j = some ms := by
      simp only [modeSweepAt, hsz]
      exact hjms
    have hsj : s.modes.getD j default =
        (sweepMode (Real.logb 10) (fun x => (10:ℝ)^x) c0
          (baseline.modes.getD j default) (modeSweepAt sw j)).rowAt i := by
      rw [hsmodes, List.map_map, map_range_getD_lt _ _ _ _ hjlen]
      rfl
    rw [hsj, hmsw]
    have hnum_eq : ((sweepMode (Real.logb 10) (fun x => (10:ℝ)^x) c0
        (baseline.modes.getD j default) (some ms)).rowAt i).number =
        ((ParameterSweep.logarithmic a b cnt).values (Real.logb 10)
          (fun x => (10:ℝ)^x)).getD i default := by
      show (sweepLeaf (Real.logb 10) (fun x => (10:ℝ)^x) c0
        (baseline.modes.getD j default).number ms.number).getD i default = _
      rw [hn]
      rfl
    rw [hnum_eq]
    have hicnt : i < cnt := by omega
    have hlt : i < ((ParameterSweep.logarithmic a b cnt).values
        (Real.logb 10) (fun x => (10:ℝ)^x)).length := by
      rw [values_length]
      exact hicnt
    rw [List.getD_eq_getElem _ _ hlt]
    simp only [ParameterSweep.values, List.getElem_map, List.getElem_range]
    rw [Real.logb_rpow (by norm_num) (by norm_num), sub_self, abs_zero]
    norm_num
  · intro a b cnt hab
    refine ⟨?_, ?_, ?_⟩
    · rw [ParameterSweep.values, List.pairwise_map]
      refine List.Pairwise.imp_of_mem ?_ (List.pairwise_lt_range cnt)
      intro i1 i2 h1 h2 hlt
      have hc : 0 < cnt := by
        have := List.mem_range.mp h2
        omega
      have hcpos : (0:ℝ) < (cnt:ℝ) := by exact_mod_cast hc
      have hstep : 0 < (b - a)/(cnt:ℝ) := div_pos (sub_pos.mpr hab) hcpos
      have hi12 : (i1:ℝ) < (i2:ℝ) := by exact_mod_cast hlt
      have := mul_lt_mul_of_pos_right hi12 hstep
      linarith
    · intro x hx
      rw [ParameterSweep.values] at hx
      obtain ⟨i, hi, rfl⟩ := List.mem_map.mp hx
      have hicnt := List.mem_range.mp hi
      have hc : 0 < cnt := by omega
      have hcpos : (0:ℝ) < (cnt:ℝ) := by exact_mod_cast hc
      have hstep : 0 < (b - a)/(cnt:ℝ) := div_pos (sub_pos.mpr hab) hcpos
      constructor
      · have h0 : 0 ≤ (i:ℝ) * ((b - a)/(cnt:ℝ)) :=
          mul_nonneg (Nat.cast_nonneg i) (le_of_lt hstep)
        linarith
      · have hi' : (i:ℝ) < (cnt:ℝ) := by exact_mod_cast hicnt
        have h1 := mul_lt_mul_of_pos_right hi' hstep
        have h2 : (cnt:ℝ) * ((b - a)/(cnt:ℝ)) = b - a := by
          field_simp
        linarith
    · intro hc
      rw [ParameterSweep.values]
      refine List.mem_map.mpr ⟨0, List.mem_range.mpr hc, ?_⟩
      norm_num
  · intro a b cnt ha hab
    rw [ParameterSweep.values, List.pairwise_map]
    refine List.Pairwise.imp_of_mem ?_ (List.pairwise_lt_range cnt)
    intro i1 i2 h1 h2 hlt
    have hc : 0 < cnt := by
      have := List.mem_range.mp h2
      omega
    have hcpos : (0:ℝ) < (cnt:ℝ) := by exact_mod_cast hc
    have hLlt : Real.logb 10 a < Real.logb 10 b :=
      Real.logb_lt_logb (by norm_num) ha hab
    have hstep : 0 < (Real.logb 10 b - Real.logb 10 a)/(cnt:ℝ) :=
      div_pos (sub_pos.mpr hLlt) hcpos
    have hi12 : (i1:ℝ) < (i2:ℝ) := by exact_mod_cast hlt
    apply (Real.rpow_lt_rpow_left_iff (by norm_num : (1:ℝ) < 10)).mpr
    have := mul_lt_mul_of_pos_right hi12 hstep
    linarith
  · intro baseline sw e i s hok hmem
    obtain ⟨c0, cs0, heq, hall, he⟩ := sweep_ok_elim hok
    subst he
    have hfull := member_elim_full hmem
    have hic : i < c0 := lt_of_lt_of_eq (get_some_lt_length hfull.2.2.1)
      (sweep_flux_length _ _ baseline.flux hall)
    refine ⟨?_, ?_, ?_, ?_, ?_, ?_, ?_⟩
    · intro hnone
      have h2 : (sweepLeaf (Real.logb 10) (fun x => (10:ℝ)^x) c0
          baseline.temperature sw.temperature).get? i =
          some s.temperature := hfull.2.2.2.2.1
      rw [hnone] at h2
      exact replicate_get_some h2
    · intro hnone
      have h2 : (sweepLeaf (Real.logb 10) (fun x => (10:ℝ)^x) c0
          baseline.flux sw.flux).get? i = some s.flux := hfull.2.2.1
      rw [hnone] at h2
      exact replicate_get_some h2
    · intro hnone
      have h2 : (sweepLeaf (Real.logb 10) (fun x => (10:ℝ)^x) c0
          baseline.relative_humidity sw.relative_humidity).get? i =
          some s.relative_humidity := hfull.2.2.2.1
      rw [hnone] at h2
      exact replicate_get_some h2
    · intro hnone
      have h2 : (sweepLeaf (Real.logb 10) (fun x => (10:ℝ)^x) c0
          baseline.pressure sw.pressure).get? i = some s.pressure :=
        hfull.2.2.2.2.2.1
      rw [hnone] at h2
      exact replicate_get_some h2
    · intro hnone
      have h2 : (sweepLeaf (Real.logb 10) (fun x => (10:ℝ)^x) c0
          baseline.height sw.height).get? i = some s.height :=
        hfull.2.2.2.2.2.2
      rw [hnone] at h2
      exact replicate_get_some h2
    · have h2 : (baseline.gas_concs.map (List.replicate c0)).mapM
          (fun c => c.get? i) = some s.gas_concs := hfull.2.1
      rw [list_mapM_map] at h2
      have h0 := option_mapM_eq_of_pointwise h2 (g := fun x => x)
        (fun x _ y hy => replicate_get_some hy)
      simpa using h0
    · intro j hjlen hnone
      have hsmodes := member_modes_det hmem
      rw [hsmodes, List.map_map, map_range_getD_lt _ _ _ _ hjlen]
      show (sweepMode (Real.logb 10) (fun x => (10:ℝ)^x) c0
        (baseline.modes.getD j default) (modeSweepAt sw j)).rowAt i =
        baseline.modes.getD j default
      rw [hnone]
      show AerosolModeState.mk
        (baseline.modes.getD j default).name
        (baseline.modes.getD j default).species
        ((List.replicate c0
          (baseline.modes.getD j default).number).getD i default)
        ((List.replicate c0
          (baseline.modes.getD j default).geom_mean_diam).getD i default)
        ((List.replicate c0
          (baseline.modes.getD j default).log10_geom_std_dev).getD i default)
        (((baseline.modes.getD j default).mass_fractions.map
          (List.replicate c0)).map (fun c => c.getD i default))
        = baseline.modes.getD j default
      rw [replicate_getD_lt _ _ hic, replicate_getD_lt _ _ hic,
        replicate_getD_lt _ _ hic, List.map_map]
      simp only [Function.comp_def]
      rw [List.map_congr_left (g := fun x => x)
          (fun x _ => replicate_getD_lt x default hic),
        List.map_id']

/-- Witness for C3 (amended): a concrete baseline swept by
`linear(0, 1, 2)` on the temperature and by `logarithmic(1, 10, 2)` on the
first mode's number concentration: the ensembles have length 2, member 0
matches the predicted trajectory values exactly, the value sequences are
increasing and span `[start, stop)`, and unswept fields equal the
baseline. -/
theorem sweep_trajectory_witness :
    (∃ e : Ensemble ℝ,
      sweep (Real.logb 10) (fun x => (10:ℝ)^x)
        ⟨["a"], ["g"], [⟨"m", ["a"], 1, 2, 3, [1/2, 1/2]⟩],
          [4], 5, 6, 7, 8, 9⟩
        ⟨none, none, none, some (.linear 0 1 2), none, none⟩ = .ok e ∧
      e.len = 2) ∧
    (∃ (e : Ensemble ℝ) (s : Scenario ℝ),
      sweep (Real.logb 10) (fun x => (10:ℝ)^x)
        ⟨["a"], ["g"], [⟨"m", ["a"], 1, 2, 3, [1/2, 1/2]⟩],
          [4], 5, 6, 7, 8, 9⟩
        ⟨none, none, none, some (.linear 0 1 2), none, none⟩ = .ok e ∧
      e.member 0 = some s ∧
      |s.temperature -
        ((0:ℝ) + ((0:ℕ):ℝ) * (((1:ℝ) - (0:ℝ)) / ((2:ℕ):ℝ)))| < 1/10^12) ∧
    (∃ (e : Ensemble ℝ) (s : Scenario ℝ),
      sweep (Real.logb 10) (fun x => (10:ℝ)^x)
        ⟨["a"], ["g"], [⟨"m", ["a"], 1, 2, 3, [1/2, 1/2]⟩],
          [4], 5, 6, 7, 8, 9⟩
        ⟨some ⟨[some ⟨["a"], some (.logarithmic 1 10 2), none, none⟩]⟩,
          none, none, none, none, none⟩ = .ok e ∧
      e.member 0 = some s ∧
      |Real.logb 10 ((s.modes.getD 0 default).number) -
        (Real.logb 10 1 + ((0:ℕ):ℝ) *
          ((Real.logb 10 10 - Real.logb 10 1) / ((2:ℕ):ℝ)))| < 1/10^12) ∧
    (((ParameterSweep.linear (0:ℝ) 1 2).values (Real.logb 10)
        (fun x => (10:ℝ)^x)).Pairwise (· < ·) ∧
      (∀ x ∈ (ParameterSweep.linear (0:ℝ) 1 2).values (Real.logb 10)
        (fun x => (10:ℝ)^x), 0 ≤ x ∧ x < 1) ∧
      (0:ℝ) ∈ (ParameterSweep.linear (0:ℝ) 1 2).values (Real.logb 10)
        (fun x => (10:ℝ)^x)) ∧
    ((ParameterSweep.logarithmic (1:ℝ) 10 2).values (Real.logb 10)
      (fun x => (10:ℝ)^x)).Pairwise (· < ·) ∧
    (∃ (e : Ensemble ℝ) (s : Scenario ℝ),
      sweep (Real.logb 10) (fun x => (10:ℝ)^x)
        ⟨["a"], ["g"], [⟨"m", ["a"], 1, 2, 3, [1/2, 1/2]⟩],
          [4], 5, 6, 7, 8, 9⟩
        ⟨none, none, none, some (.linear 0 1 2), none, none⟩ = .ok e ∧
      e.member 0 = some s ∧
      s.flux = (5:ℝ) ∧ s.gas_concs = [(4:ℝ)] ∧
      s.modes.getD 0 default =
        (⟨"m", ["a"], 1, 2, 3, [1/2, 1/2]⟩ : AerosolModeState ℝ)) := by
  refine ⟨?_, ?_, ?_, ?_, ?_, ?_⟩
  · exact ⟨⟨["a"], ["g"],
      [⟨"m", ["a"], [1, 1], [2, 2], [3, 3], [[1/2, 1/2], [1/2, 1/2]]⟩],
      [[4, 4]], [5, 5], [6, 6],
      [(0:ℝ) + ((0:ℕ):ℝ) * (((1:ℝ) - (0:ℝ)) / ((2:ℕ):ℝ)),
       (0:ℝ) + ((1:ℕ):ℝ) * (((1:ℝ) - (0:ℝ)) / ((2:ℕ):ℝ))],
      [8, 8], [9, 9]⟩, rfl,
      sweep_trajectory.1
        ⟨["a"], ["g"], [⟨"m", ["a"], 1, 2, 3, [1/2, 1/2]⟩],
          [4], 5, 6, 7, 8, 9⟩
        ⟨none, none, none, some (.linear 0 1 2), none, none⟩
        ⟨["a"], ["g"],
          [⟨"m", ["a"], [1, 1], [2, 2], [3, 3], [[1/2, 1/2], [1/2, 1/2]]⟩],
          [[4, 4]], [5, 5], [6, 6],
          [(0:ℝ) + ((0:ℕ):ℝ) * (((1:ℝ) - (0:ℝ)) / ((2:ℕ):ℝ)),
           (0:ℝ) + ((1:ℕ):ℝ) * (((1:ℝ) - (0:ℝ)) / ((2:ℕ):ℝ))],
          [8, 8], [9, 9]⟩ 2 rfl (by decide)⟩
  · exact ⟨⟨["a"], ["g"],
      [⟨"m", ["a"], [1, 1], [2, 2], [3, 3], [[1/2, 1/2], [1/2, 1/2]]⟩],
      [[4, 4]], [5, 5], [6, 6],
      [(0:ℝ) + ((0:ℕ):ℝ) * (((1:ℝ) - (0:ℝ)) / ((2:ℕ):ℝ)),
       (0:ℝ) + ((1:ℕ):ℝ) * (((1:ℝ) - (0:ℝ)) / ((2:ℕ):ℝ))],
      [8, 8], [9, 9]⟩,
      ⟨["a"], ["g"], [⟨"m", ["a"], 1, 2, 3, [1/2, 1/2]⟩], [4], 5, 6,
        (0:ℝ) + ((0:ℕ):ℝ) * (((1:ℝ) - (0:ℝ)) / ((2:ℕ):ℝ)), 8, 9⟩,
      rfl, rfl,
      sweep_trajectory.2.1
        ⟨["a"], ["g"], [⟨"m", ["a"], 1, 2, 3, [1/2, 1/2]⟩],
          [4], 5, 6, 7, 8, 9⟩
        ⟨none, none, none, some (.linear 0 1 2), none, none⟩
        ⟨["a"], ["g"],
          [⟨"m", ["a"], [1, 1], [2, 2], [3, 3], [[1/2, 1/2], [1/2, 1/2]]⟩],
          [[4, 4]], [5, 5], [6, 6],
          [(0:ℝ) + ((0:ℕ):ℝ) * (((1:ℝ) - (0:ℝ)) / ((2:ℕ):ℝ)),
           (0:ℝ) + ((1:ℕ):ℝ) * (((1:ℝ) - (0:ℝ)) / ((2:ℕ):ℝ))],
          [8, 8], [9, 9]⟩ 0
        ⟨["a"], ["g"], [⟨"m", ["a"], 1, 2, 3, [1/2, 1/2]⟩], [4], 5, 6,
          (0:ℝ) + ((0:ℕ):ℝ) * (((1:ℝ) - (0:ℝ)) / ((2:ℕ):ℝ)), 8, 9⟩
        0 1 2 rfl rfl rfl⟩
  · exact ⟨⟨["a"], ["g"],
      [⟨"m", ["a"],
        [(10:ℝ) ^ (Real.logb 10 1 + ((0:ℕ):ℝ) *
          ((Real.logb 10 10 - Real.logb 10 1) / ((2:ℕ):ℝ))),
         (10:ℝ) ^ (Real.logb 10 1 + ((1:ℕ):ℝ) *
          ((Real.logb 10 10 - Real.logb 10 1) / ((2:ℕ):ℝ)))],
        [2, 2], [3, 3], [[1/2, 1/2], [1/2, 1/2]]⟩],
      [[4, 4]], [5, 5], [6, 6], [7, 7], [8, 8], [9, 9]⟩,
      ⟨["a"], ["g"],
        [⟨"m", ["a"],
          (10:ℝ) ^ (Real.logb 10 1 + ((0:ℕ):ℝ) *
            ((Real.logb 10 10 - Real.logb 10 1) / ((2:ℕ):ℝ))),
          2, 3, [1/2, 1/2]⟩], [4], 5, 6, 7, 8, 9⟩,
      rfl, rfl,
      sweep_trajectory.2.2.1
        ⟨["a"], ["g"], [⟨"m", ["a"], 1, 2, 3, [1/2, 1/2]⟩],
          [4], 5, 6, 7, 8, 9⟩
        ⟨some ⟨[some ⟨["a"], some (.logarithmic 1 10 2), none, none⟩]⟩,
          none, none, none, none, none⟩
        ⟨["a"], ["g"],
          [⟨"m", ["a"],
            [(10:ℝ) ^ (Real.logb 10 1 + ((0:ℕ):ℝ) *
              ((Real.logb 10 10 - Real.logb 10 1) / ((2:ℕ):ℝ))),
             (10:ℝ) ^ (Real.logb 10 1 + ((1:ℕ):ℝ) *
              ((Real.logb 10 10 - Real.logb 10 1) / ((2:ℕ):ℝ)))],
            [2, 2], [3, 3], [[1/2, 1/2], [1/2, 1/2]]⟩],
          [[4, 4]], [5, 5], [6, 6], [7, 7], [8, 8], [9, 9]⟩ 0 0
        ⟨["a"], ["g"],
          [⟨"m", ["a"],
            (10:ℝ) ^ (Real.logb 10 1 + ((0:ℕ):ℝ) *
              ((Real.logb 10 10 - Real.logb 10 1) / ((2:ℕ):ℝ))),
            2, 3, [1/2, 1/2]⟩], [4], 5, 6, 7, 8, 9⟩
        ⟨[some ⟨["a"], some (.logarithmic 1 10 2), none, none⟩]⟩
        ⟨["a"], some (.logarithmic 1 10 2), none, none⟩
        1 10 2 rfl rfl rfl rfl rfl Nat.one_pos⟩
  · have h := sweep_trajectory.2.2.2.1 (0:ℝ) 1 2 (by norm_num)
    exact ⟨h.1, h.2.1, h.2.2 (by norm_num)⟩
  · exact sweep_trajectory.2.2.2.2.1 (1:ℝ) 10 2 (by norm_num) (by norm_num)
  · refine ⟨⟨["a"], ["g"],
      [⟨"m", ["a"], [1, 1], [2, 2], [3, 3], [[1/2, 1/2], [1/2, 1/2]]⟩],
      [[4, 4]], [5, 5], [6, 6],
      [(0:ℝ) + ((0:ℕ):ℝ) * (((1:ℝ) - (0:ℝ)) / ((2:ℕ):ℝ)),
       (0:ℝ) + ((1:ℕ):ℝ) * (((1:ℝ) - (0:ℝ)) / ((2:ℕ):ℝ))],
      [8, 8], [9, 9]⟩,
      ⟨["a"], ["g"], [⟨"m", ["a"], 1, 2, 3, [1/2, 1/2]⟩], [4], 5, 6,
        (0:ℝ) + ((0:ℕ):ℝ) * (((1:ℝ) - (0:ℝ)) / ((2:ℕ):ℝ)), 8, 9⟩,
      rfl, rfl, ?_, ?_, ?_⟩
    all_goals
      have h := sweep_trajectory.2.2.2.2.2
        ⟨["a"], ["g"], [⟨"m", ["a"], 1, 2, 3, [1/2, 1/2]⟩],
          [4], 5, 6, 7, 8, 9⟩
        ⟨none, none, none, some (.linear 0 1 2), none, none⟩
        ⟨["a"], ["g"],
          [⟨"m", ["a"], [1, 1], [2, 2], [3, 3], [[1/2, 1/2], [1/2, 1/2]]⟩],
          [[4, 4]], [5, 5], [6, 6],
          [(0:ℝ) + ((0:ℕ):ℝ) * (((1:ℝ) - (0:ℝ)) / ((2:ℕ):ℝ)),
           (0:ℝ) + ((1:ℕ):ℝ) * (((1:ℝ) - (0:ℝ)) / ((2:ℕ):ℝ))],
          [8, 8], [9, 9]⟩ 0
        ⟨["a"], ["g"], [⟨"m", ["a"], 1, 2, 3, [1/2, 1/2]⟩], [4], 5, 6,
          (0:ℝ) + ((0:ℕ):ℝ) * (((1:ℝ) - (0:ℝ)) / ((2:ℕ):ℝ)), 8, 9⟩
        rfl rfl
    · exact h.2.1 rfl
    · exact h.2.2.2.2.2.1
    · exact h.2.2.2.2.2.2 0 Nat.one_pos rfl

/-- C1: every member extracted from an ensemble produced by `sample`, `lhs`
or `sweep` has, in every aerosol mode, mass fractions summing to 1 within
1e-12: for `sample` and `lhs` because each member's raw mass-fraction
vector is rescaled by its own (nonzero) sum before the Ensemble is
returned, and for `sweep` because mass fractions are broadcast from a
baseline that satisfies the invariant. -/
theorem ensemble_mass_fractions_sum_to_one :
    (∀ (spec : EnsembleSpecification) (n : ℤ) (e : Ensemble ℚ) (i : ℕ)
      (s : Scenario ℚ),
      sample spec n = .ok e →
      (∀ md ∈ spec.modes, ∀ i' < n.toNat,
        rowSum (md.mass_fractions.map (sampleLeaf n.toNat)) i' ≠ 0) →
      e.member i = some s →
      ∀ mo ∈ s.modes, |mo.mass_fractions.sum - 1| < 1/10^12) ∧
    (∀ (spec : EnsembleSpecification) (n : ℤ) (e : Ensemble ℚ) (i : ℕ)
      (s : Scenario ℚ),
      lhs spec n = .ok e →
      (∀ md ∈ spec.modes, ∀ raw : List (List ℚ),
        md.mass_fractions.mapM (lhsLeaf n.toNat) = .ok raw →
        ∀ i' < n.toNat, rowSum raw i' ≠ 0) →
      e.member i = some s →
      ∀ mo ∈ s.modes, |mo.mass_fractions.sum - 1| < 1/10^12) ∧
    (∀ (log10 exp10 : ℝ → ℝ) (baseline : Scenario ℝ)
      (sw : AerosolParameterSweeps ℝ) (e : Ensemble ℝ) (i : ℕ)
      (s : Scenario ℝ),
      sweep log10 exp10 baseline sw = .ok e →
      (∀ bm ∈ baseline.modes, |bm.mass_fractions.sum - 1| < 1/10^12) →
      e.member i = some s →
      ∀ mo ∈ s.modes, |mo.mass_fractions.sum - 1| < (1:ℝ)/10^12) := by
  have habs : ∀ x : ℚ, x = 1 → |x - 1| < 1/10^12 := by
    intro x hx
    rw [hx]
    norm_num
  refine ⟨?_, ?_, ?_⟩
  · intro spec n e i s hok hpos hmem mo hmo
    unfold sample at hok
    by_cases hle : n ≤ 0
    · rw [if_pos hle] at hok; cases hok
    rw [if_neg hle] at hok
    injection hok with hok
    subst hok
    have hms := member_modes_elim hmem
    obtain ⟨mp, hmp, hmode⟩ := option_mapM_mem hms mo hmo
    obtain ⟨md, hmd, hmdp⟩ := List.mem_map.mp hmp
    subst hmdp
    have hrow := mass_fractions_row_of_memberMode 0 hmode
    apply habs
    have : (sampleMode n.toNat md).mass_fractions =
        normalizeMassFractions (md.mass_fractions.map (sampleLeaf n.toNat)) :=
      rfl
    rw [this] at hrow
    rw [hrow]
    have hnum := memberMode_number_elim hmode
    have hi_n : i < n.toNat := by
      have hlen := get_some_lt_length hnum
      have hsm : (sampleMode n.toNat md).number = sampleLeaf n.toNat md.number :=
        rfl
      rw [hsm, sampleLeaf_length] at hlen
      exact hlen
    show rowSum (normalizeMassFractions
      (md.mass_fractions.map (sampleLeaf n.toNat))) i = 1
    exact normalize_rowSum_eq_one _ i (hpos md hmd i hi_n)
  · intro spec n e i s hok hpos hmem mo hmo
    unfold lhs at hok
    by_cases hle : n ≤ 0
    · rw [if_pos hle] at hok; cases hok
    rw [if_neg hle] at hok
    cases h1 : spec.modes.mapM (lhsMode n.toNat) with
    | error e1 => rw [h1, except_bind_error] at hok; cases hok
    | ok ms =>
    rw [h1, except_bind_ok] at hok
    cases h2 : spec.gas_concs.mapM (lhsLeaf n.toNat) with
    | error e2 => rw [h2, except_bind_error] at hok; cases hok
    | ok gcs =>
    rw [h2, except_bind_ok] at hok
    cases h3 : lhsLeaf n.toNat spec.flux with
    | error e3 => rw [h3, except_bind_error] at hok; cases hok
    | ok v3 =>
    rw [h3, except_bind_ok] at hok
    cases h4 : lhsLeaf n.toNat spec.relative_humidity with
    | error e4 => rw [h4, except_bind_error] at hok; cases hok
    | ok v4 =>
    rw [h4, except_bind_ok] at hok
    cases h5 : lhsLeaf n.toNat spec.temperature with
    | error e5 => rw [h5, except_bind_error] at hok; cases hok
    | ok v5 =>
    rw [h5, except_bind_ok] at hok
    cases h6 : lhsLeaf n.toNat spec.pressure with
    | error e6 => rw [h6, except_bind_error] at hok; cases hok
    | ok v6 =>
    rw [h6, except_bind_ok] at hok
    cases h7 : lhsLeaf n.toNat spec.height with
    | error e7 => rw [h7, except_bind_error] at hok; cases hok
    | ok v7 =>
    rw [h7, except_bind_ok] at hok
    injection hok with hok
    subst hok
    have hms := member_modes_elim hmem
    have hems : (Ensemble.mk spec.aerosols spec.gases ms gcs v3 v4 v5 v6
        v7).modes = ms := rfl
    rw [hems] at hms
    obtain ⟨mp, hmp, hmode⟩ := option_mapM_mem hms mo hmo
    obtain ⟨md, hmd, hlm⟩ := except_mapM_ok_mem h1 mp hmp
    unfold lhsMode at hlm
    cases g1 : lhsLeaf n.toNat md.number with
    | error ge1 => rw [g1, except_bind_error] at hlm; cases hlm
    | ok w1 =>
    rw [g1, except_bind_ok] at hlm
    cases g2 : lhsLeaf n.toNat md.geom_mean_diam with
    | error ge2 => rw [g2, except_bind_error] at hlm; cases hlm
    | ok w2 =>
    rw [g2, except_bind_ok] at hlm
    cases g3 : lhsLeaf n.toNat md.log10_geom_std_dev with
    | error ge3 => rw [g3, except_bind_error] at hlm; cases hlm
    | ok w3 =>
    rw [g3, except_bind_ok] at hlm
    cases g4 : md.mass_fractions.mapM (lhsLeaf n.toNat) with
    | error ge4 => rw [g4, except_bind_error] at hlm; cases hlm
    | ok raw =>
    rw [g4, except_bind_ok] at hlm
    injection hlm with hlm
    subst hlm
    have hrow := mass_fractions_row_of_memberMode 0 hmode
    apply habs
    rw [hrow]
    have hnum := memberMode_number_elim hmode
    have hi_n : i < n.toNat := by
      have hlen := get_some_lt_length hnum
      have hw1 : (AerosolModePopulation.mk md.name md.species w1 w2 w3
          (normalizeMassFractions raw)).number = w1 := rfl
      rw [hw1, lhsLeaf_ok_length g1] at hlen
      exact hlen
    show rowSum (normalizeMassFractions raw) i = 1
    exact normalize_rowSum_eq_one _ i (hpos md hmd raw g4 i hi_n)
  · intro log10 exp10 baseline sw e i s hok hbase hmem mo hmo
    unfold sweep at hok
    split at hok
    · cases hok
    · rename_i c cs heq
      split at hok
      case isFalse => cases hok
      injection hok with hok
      subst hok
      have hms := member_modes_elim hmem
      obtain ⟨mp, hmp, hmode⟩ := option_mapM_mem hms mo hmo
      obtain ⟨j, hj, hjp⟩ := List.mem_map.mp hmp
      have hjm := List.mem_range.mp hj
      subst hjp
      have hrow := mass_fractions_row_of_memberMode
        (baseline.modes.getD j default).number hmode
      have hcols : (sweepMode log10 exp10 c (baseline.modes.getD j default)
          (modeSweepAt sw j)).mass_fractions =
          (baseline.modes.getD j default).mass_fractions.map
            (List.replicate c) := rfl
      have hmfs := memberMode_mass_fractions_elim hmode
      rw [hcols] at hmfs
      rw [list_mapM_map] at hmfs
      have hmo_eq : mo.mass_fractions =
          (baseline.modes.getD j default).mass_fractions := by
        have h0 := option_mapM_eq_of_pointwise hmfs
          (g := fun x => x) (fun x _ y hy => replicate_get_some hy)
        simpa using h0
      have hbm : baseline.modes.getD j default ∈ baseline.modes := by
        rw [List.getD_eq_getElem _ _ hjm]
        exact List.getElem_mem hjm
      rw [hmo_eq]
      exact hbase _ hbm

/-- Witness for C1: concrete one-mode specifications sampled with `n = 1`
(raw draws 3 and 1 for `sample`, quantiles 1/2 and 1/4 for `lhs`) and a
concrete temperature sweep: the extracted members' mode mass fractions sum
to 1 within 1e-12. -/
theorem ensemble_mass_fractions_sum_to_one_witness :
    |([(3:ℚ)/4, 1/4].sum) - 1| < 1/10^12 ∧
    |([(2:ℚ)/3, 1/3].sum) - 1| < 1/10^12 ∧
    |([(1:ℝ)/2, 1/2].sum) - 1| < (1:ℝ)/10^12 := by
  refine ⟨?_, ?_, ?_⟩
  · have happly := ensemble_mass_fractions_sum_to_one.1
      ⟨"w1", ["a", "b"], ["g"],
        [⟨"m", ["a", "b"], .fixed 5, .fixed 1, .fixed 0,
          [.dist ⟨fun _ => 3, none, fun _ r => r, fun _ => 0⟩,
           .dist ⟨fun _ => 1, none, fun _ r => r, fun _ => 0⟩]⟩],
        [], .fixed 7, .fixed 6, .fixed 7, .fixed 8, .fixed 9⟩ 1
      ⟨["a", "b"], ["g"],
        [⟨"m", ["a", "b"], [5], [1], [0],
          normalizeMassFractions [[3], [1]]⟩],
        [], [7], [6], [7], [8], [9]⟩ 0
      ⟨["a", "b"], ["g"],
        [⟨"m", ["a", "b"], 5, 1, 0,
          [(3:ℚ) / rowSum [[3], [1]] 0, (1:ℚ) / rowSum [[3], [1]] 0]⟩],
        [], 7, 6, 7, 8, 9⟩
      rfl ?_ rfl
      ⟨"m", ["a", "b"], 5, 1, 0,
        [(3:ℚ) / rowSum [[3], [1]] 0, (1:ℚ) / rowSum [[3], [1]] 0]⟩
      (List.mem_singleton.mpr rfl)
    · have hval : [(3:ℚ) / rowSum [[3], [1]] 0,
          (1:ℚ) / rowSum [[3], [1]] 0] = [3/4, 1/4] := by
        norm_num [rowSum]
      rw [← hval]
      exact happly
    · intro md hmd i' hi'
      have hmd' : md = ⟨"m", ["a", "b"], .fixed 5, .fixed 1, .fixed 0,
          [.dist ⟨fun _ => 3, none, fun _ r => r, fun _ => 0⟩,
           .dist ⟨fun _ => 1, none, fun _ r => r, fun _ => 0⟩]⟩ := by
        simpa using hmd
      subst hmd'
      have hi0 : i' = 0 := by omega
      subst hi0
      show rowSum [[(3:ℚ)], [(1:ℚ)]] 0 ≠ 0
      norm_num [rowSum]
  · have happly := ensemble_mass_fractions_sum_to_one.2.1
      ⟨"w2", ["a", "b"], ["g"],
        [⟨"m", ["a", "b"], .fixed 5, .fixed 1, .fixed 0,
          [.dist ⟨fun _ => 1, some (fun q => q), fun _ r => r,
            fun _ => 1/2⟩,
           .dist ⟨fun _ => 1, some (fun q => q), fun _ r => r,
            fun _ => 1/4⟩]⟩],
        [], .fixed 7, .fixed 6, .fixed 7, .fixed 8, .fixed 9⟩ 1
      ⟨["a", "b"], ["g"],
        [⟨"m", ["a", "b"], [5], [1], [0],
          normalizeMassFractions
            [[(((0:ℕ):ℚ) + 1/2) / ((1:ℕ):ℚ)],
             [(((0:ℕ):ℚ) + 1/4) / ((1:ℕ):ℚ)]]⟩],
        [], [7], [6], [7], [8], [9]⟩ 0
      ⟨["a", "b"], ["g"],
        [⟨"m", ["a", "b"], 5, 1, 0,
          [((((0:ℕ):ℚ) + 1/2) / ((1:ℕ):ℚ)) /
            rowSum [[(((0:ℕ):ℚ) + 1/2) / ((1:ℕ):ℚ)],
              [(((0:ℕ):ℚ) + 1/4) / ((1:ℕ):ℚ)]] 0,
           ((((0:ℕ):ℚ) + 1/4) / ((1:ℕ):ℚ)) /
            rowSum [[(((0:ℕ):ℚ) + 1/2) / ((1:ℕ):ℚ)],
              [(((0:ℕ):ℚ) + 1/4) / ((1:ℕ):ℚ)]] 0]⟩],
        [], 7, 6, 7, 8, 9⟩
      rfl ?_ rfl
      ⟨"m", ["a", "b"], 5, 1, 0,
        [((((0:ℕ):ℚ) + 1/2) / ((1:ℕ):ℚ)) /
          rowSum [[(((0:ℕ):ℚ) + 1/2) / ((1:ℕ):ℚ)],
            [(((0:ℕ):ℚ) + 1/4) / ((1:ℕ):ℚ)]] 0,
         ((((0:ℕ):ℚ) + 1/4) / ((1:ℕ):ℚ)) /
          rowSum [[(((0:ℕ):ℚ) + 1/2) / ((1:ℕ):ℚ)],
            [(((0:ℕ):ℚ) + 1/4) / ((1:ℕ):ℚ)]] 0]⟩
      (List.mem_singleton.mpr rfl)
    · have hval : [((((0:ℕ):ℚ) + 1/2) / ((1:ℕ):ℚ)) /
          rowSum [[(((0:ℕ):ℚ) + 1/2) / ((1:ℕ):ℚ)],
            [(((0:ℕ):ℚ) + 1/4) / ((1:ℕ):ℚ)]] 0,
         ((((0:ℕ):ℚ) + 1/4) / ((1:ℕ):ℚ)) /
          rowSum [[(((0:ℕ):ℚ) + 1/2) / ((1:ℕ):ℚ)],
            [(((0:ℕ):ℚ) + 1/4) / ((1:ℕ):ℚ)]] 0] = [2/3, 1/3] := by
        norm_num [rowSum]
      rw [← hval]
      exact happly
    · intro md hmd raw hraw i' hi'
      have hmd' : md = ⟨"m", ["a", "b"], .fixed 5, .fixed 1, .fixed 0,
          [.dist ⟨fun _ => 1, some (fun q => q), fun _ r => r,
            fun _ => 1/2⟩,
           .dist ⟨fun _ => 1, some (fun q => q), fun _ r => r,
            fun _ => 1/4⟩]⟩ := by
        simpa using hmd
      subst hmd'
      have hcomp : ([SpecLeaf.dist ⟨fun _ => 1, some (fun q => q),
            fun _ r => r, fun _ => 1/2⟩,
          SpecLeaf.dist ⟨fun _ => 1, some (fun q => q), fun _ r => r,
            fun _ => 1/4⟩].mapM (lhsLeaf (1 : ℤ).toNat)) =
          .ok [[(((0:ℕ):ℚ) + 1/2) / ((1:ℕ):ℚ)],
            [(((0:ℕ):ℚ) + 1/4) / ((1:ℕ):ℚ)]] := rfl
      rw [hcomp] at hraw
      injection hraw with hraw
      have hi0 : i' = 0 := by omega
      subst hi0
      rw [← hraw]
      show rowSum [[(((0:ℕ):ℚ) + 1/2) / ((1:ℕ):ℚ)],
        [(((0:ℕ):ℚ) + 1/4) / ((1:ℕ):ℚ)]] 0 ≠ 0
      norm_num [rowSum]
  · refine ensemble_mass_fractions_sum_to_one.2.2 id id
      ⟨["a"], ["g"], [⟨"m", ["a"], 1, 2, 3, [1/2, 1/2]⟩], [4], 5, 6, 7, 8, 9⟩
      ⟨none, none, none, some (.linear 0 1 2), none, none⟩
      ⟨["a"], ["g"],
        [⟨"m", ["a"], [1, 1], [2, 2], [3, 3], [[1/2, 1/2], [1/2, 1/2]]⟩],
        [[4, 4]], [5, 5], [6, 6],
        [(0 : ℝ) + ((0 : ℕ) : ℝ) * (((1 : ℝ) - (0 : ℝ)) / ((2 : ℕ) : ℝ)),
         (0 : ℝ) + ((1 : ℕ) : ℝ) * (((1 : ℝ) - (0 : ℝ)) / ((2 : ℕ) : ℝ))],
        [8, 8], [9, 9]⟩ 0
      ⟨["a"], ["g"], [⟨"m", ["a"], 1, 2, 3, [1/2, 1/2]⟩], [4], 5, 6,
        (0 : ℝ) + ((0 : ℕ) : ℝ) * (((1 : ℝ) - (0 : ℝ)) / ((2 : ℕ) : ℝ)),
        8, 9⟩
      rfl ?_ rfl
      ⟨"m", ["a"], 1, 2, 3, [1/2, 1/2]⟩ (List.mem_singleton.mpr rfl)
    intro bm hbm
    have hbm' : bm = ⟨"m", ["a"], 1, 2, 3, [1/2, 1/2]⟩ := by
      simpa using hbm
    subst hbm'
    show |([(1:ℝ)/2, 1/2]).sum - 1| < 1/10^12
    norm_num [List.sum_cons, List.sum_nil]

/-- C2: for a valid specification (every leaf supports the inverse CDF) and
`n > 0`, `lhs` returns an Ensemble of length exactly `n`; a distribution
leaf's sampled values map row `r` through the inverse CDF at the quantile
`(perm[r] + jitter[r]) / n`; when the permutation really permutes
`{0,...,n-1}` and the jitter draws lie in `[0,1)`, exactly one row's
quantile falls in each of the `n` equal-probability strata
`[k/n, (k+1)/n)`; and fixed scalar leaves are broadcast unchanged. -/
theorem lhs_stratified_sampling (spec : EnsembleSpecification) (n : ℤ)
    (hn : 0 < n)
    (hall : (spec.leaves.all SpecLeaf.supportsICDF) = true) :
    (∃ e, lhs spec n = .ok e ∧ e.len = n.toNat) ∧
    (∀ (d : Distribution) (f : ℚ → ℚ), d.icdf = some f →
      lhsLeaf n.toNat (.dist d) = .ok ((List.range n.toNat).map (fun r =>
        f (((d.lhsPerm n.toNat r : ℚ) + d.jitter r) / (n.toNat : ℚ))))) ∧
    (∀ d : Distribution, (∀ r, 0 ≤ d.jitter r ∧ d.jitter r < 1) →
      (∀ k < n.toNat, ∃! r, r < n.toNat ∧ d.lhsPerm n.toNat r = k) →
      ∀ k < n.toNat, ∃! r, r < n.toNat ∧
        ((k : ℚ) / (n.toNat : ℚ) ≤
            ((d.lhsPerm n.toNat r : ℚ) + d.jitter r) / (n.toNat : ℚ) ∧
          ((d.lhsPerm n.toNat r : ℚ) + d.jitter r) / (n.toNat : ℚ) <
            ((k : ℚ) + 1) / (n.toNat : ℚ))) ∧
    (∀ v : ℚ, lhsLeaf n.toNat (.fixed v) = .ok (List.replicate n.toNat v)) := by
  have hN : (0 : ℚ) < (n.toNat : ℚ) := by
    have : 0 < n.toNat := by omega
    exact_mod_cast this
  refine ⟨?_, ?_, ?_, ?_⟩
  · obtain ⟨e, he⟩ := lhs_ok_of_supports hn hall
    exact ⟨e, he, (lhs_ok_elim hn he).2⟩
  · intro d f hic
    simp only [lhsLeaf]
    rw [hic]
  · intro d hj hperm k hk
    have key : ∀ r : ℕ,
        ((k : ℚ) / (n.toNat : ℚ) ≤
            ((d.lhsPerm n.toNat r : ℚ) + d.jitter r) / (n.toNat : ℚ) ∧
          ((d.lhsPerm n.toNat r : ℚ) + d.jitter r) / (n.toNat : ℚ) <
            ((k : ℚ) + 1) / (n.toNat : ℚ)) ↔ d.lhsPerm n.toNat r = k := by
      intro r
      obtain ⟨hu0, hu1⟩ := hj r
      constructor
      · rintro ⟨hlow, hhigh⟩
        have h1 : (k : ℚ) ≤ (d.lhsPerm n.toNat r : ℚ) + d.jitter r :=
          (div_le_div_right hN).mp hlow
        have h2 : (d.lhsPerm n.toNat r : ℚ) + d.jitter r < (k : ℚ) + 1 :=
          (div_lt_div_right hN).mp hhigh
        have hp1 : (d.lhsPerm n.toNat r : ℚ) < (k : ℚ) + 1 := by
          calc (d.lhsPerm n.toNat r : ℚ) ≤ _ := le_add_of_nonneg_right hu0
            _ < (k : ℚ) + 1 := h2
        have hp2 : (k : ℚ) < (d.lhsPerm n.toNat r : ℚ) + 1 := by
          calc (k : ℚ) ≤ (d.lhsPerm n.toNat r : ℚ) + d.jitter r := h1
            _ < (d.lhsPerm n.toNat r : ℚ) + 1 := by linarith
        have hq1 : d.lhsPerm n.toNat r < k + 1 := by exact_mod_cast hp1
        have hq2 : k < d.lhsPerm n.toNat r + 1 := by exact_mod_cast hp2
        omega
      · intro hpk
        rw [hpk]
        constructor
        · apply (div_le_div_right hN).mpr
          exact le_add_of_nonneg_right hu0
        · apply (div_lt_div_right hN).mpr
          linarith
    obtain ⟨r0, ⟨hr0n, hr0p⟩, huniq⟩ := hperm k hk
    refine ⟨r0, ⟨hr0n, (key r0).mpr hr0p⟩, ?_⟩
    rintro r ⟨hrn, hint⟩
    exact huniq r ⟨hrn, (key r).mp hint⟩
  · intro v
    rfl

set_option maxHeartbeats 1000000 in
/-- Witness for C2: a one-mode specification with an invertible leaf, run
with `n = 2`, the swap permutation and jitter 1/2: `lhs` succeeds with two
members, and stratum 0 contains exactly one row's quantile. -/
theorem lhs_stratified_sampling_witness :
    (∃ e, lhs ⟨"w", ["a"], ["g"],
        [⟨"m", ["a"],
          .dist ⟨fun _ => 1, some (fun q => q), fun n r => n - 1 - r,
            fun _ => 1/2⟩,
          .fixed 1, .fixed 1, [.fixed 1]⟩],
        [.fixed 1], .fixed 1, .fixed 1, .fixed 1, .fixed 1, .fixed 1⟩ 2 =
      .ok e ∧ e.len = 2) ∧
    (∃! r, r < 2 ∧
      ((0 : ℚ) / 2 ≤ (((2 - 1 - r : ℕ) : ℚ) + 1/2) / 2 ∧
        (((2 - 1 - r : ℕ) : ℚ) + 1/2) / 2 < ((0 : ℚ) + 1) / 2)) := by
  have h := lhs_stratified_sampling ⟨"w", ["a"], ["g"],
    [⟨"m", ["a"],
      .dist ⟨fun _ => 1, some (fun q => q), fun n r => n - 1 - r,
        fun _ => 1/2⟩,
      .fixed 1, .fixed 1, [.fixed 1]⟩],
    [.fixed 1], .fixed 1, .fixed 1, .fixed 1, .fixed 1, .fixed 1⟩ 2
    (by norm_num) rfl
  refine ⟨h.1, ?_⟩
  have hj : ∀ r : ℕ,
      (0 : ℚ) ≤ (1 : ℚ)/2 ∧ (1 : ℚ)/2 < 1 := fun r => ⟨by norm_num, by norm_num⟩
  have hperm : ∀ k < (2 : ℤ).toNat, ∃! r, r < (2 : ℤ).toNat ∧
      2 - 1 - r = k := by
    intro k hk
    have hk' : k < 2 := hk
    interval_cases k
    · refine ⟨1, ⟨by omega, rfl⟩, ?_⟩
      rintro y ⟨hy2, hyp⟩
      have hy2' : y < 2 := hy2
      omega
    · refine ⟨0, ⟨by omega, rfl⟩, ?_⟩
      rintro y ⟨hy2, hyp⟩
      have hy2' : y < 2 := hy2
      omega
  exact h.2.2.1 ⟨fun _ => 1, some (fun q => q), fun n r => n - 1 - r,
    fun _ => 1/2⟩ hj hperm 0 (by omega)

/-- C5: `sample` and `lhs` reject `n <= 0` with an error (no Ensemble is
returned); and when some distribution leaf lacks inverse-CDF capability,
`lhs` fails with `UnsupportedDistributionError` while `sample` on the same
specification still succeeds. -/
theorem sampling_error_conditions (spec : EnsembleSpecification) (n : ℤ) :
    (n ≤ 0 → sample spec n = .error .valueError ∧
      lhs spec n = .error .valueError) ∧
    (0 < n → (∃ leaf ∈ spec.leaves, leaf.supportsICDF = false) →
      lhs spec n = .error .unsupportedDistributionError ∧
      ∃ e, sample spec n = .ok e) := by
  constructor
  · intro hle
    constructor
    · unfold sample
      rw [if_pos hle]
    · unfold lhs
      rw [if_pos hle]
  · intro hn hbad
    constructor
    · cases hres : lhs spec n with
      | error e' => rw [← lhs_error_eq hn hres]
      | ok e =>
        exfalso
        obtain ⟨leaf, hmem, hfalse⟩ := hbad
        have hall := (lhs_ok_elim hn hres).1
        have := List.all_eq_true.mp hall leaf hmem
        rw [hfalse] at this
        cases this
    · refine ⟨⟨spec.aerosols, spec.gases, spec.modes.map (sampleMode n.toNat),
        spec.gas_concs.map (sampleLeaf n.toNat), sampleLeaf n.toNat spec.flux,
        sampleLeaf n.toNat spec.relative_humidity,
        sampleLeaf n.toNat spec.temperature, sampleLeaf n.toNat spec.pressure,
        sampleLeaf n.toNat spec.height⟩, ?_⟩
      unfold sample
      rw [if_neg (not_le.mpr hn)]

/-- Witness for C5: a one-mode specification whose mode number leaf has no
inverse CDF: `lhs` fails with `UnsupportedDistributionError` at `n = 2`,
`sample` succeeds at `n = 2`, and both reject `n = 0`. -/
theorem sampling_error_conditions_witness :
    (lhs ⟨"w", ["a"], ["g"],
        [⟨"m", ["a"], .dist ⟨fun _ => 1, none, fun _ r => r, fun _ => 0⟩,
          .fixed 1, .fixed 1, [.fixed 1]⟩],
        [.fixed 1], .fixed 1, .fixed 1, .fixed 1, .fixed 1, .fixed 1⟩ 2 =
      .error .unsupportedDistributionError) ∧
    (∃ e, sample ⟨"w", ["a"], ["g"],
        [⟨"m", ["a"], .dist ⟨fun _ => 1, none, fun _ r => r, fun _ => 0⟩,
          .fixed 1, .fixed 1, [.fixed 1]⟩],
        [.fixed 1], .fixed 1, .fixed 1, .fixed 1, .fixed 1, .fixed 1⟩ 2 =
      .ok e) ∧
    (sample ⟨"w", ["a"], ["g"],
        [⟨"m", ["a"], .dist ⟨fun _ => 1, none, fun _ r => r, fun _ => 0⟩,
          .fixed 1, .fixed 1, [.fixed 1]⟩],
        [.fixed 1], .fixed 1, .fixed 1, .fixed 1, .fixed 1, .fixed 1⟩ 0 =
      .error .valueError) := by
  have h := sampling_error_conditions ⟨"w", ["a"], ["g"],
    [⟨"m", ["a"], .dist ⟨fun _ => 1, none, fun _ r => r, fun _ => 0⟩,
      .fixed 1, .fixed 1, [.fixed 1]⟩],
    [.fixed 1], .fixed 1, .fixed 1, .fixed 1, .fixed 1, .fixed 1⟩
  have h2 := (h 2).2 (by norm_num)
    ⟨.dist ⟨fun _ => 1, none, fun _ r => r, fun _ => 0⟩,
      (by simp [EnsembleSpecification.leaves,
        Ppe.AerosolModeDistribution.leaves]), rfl⟩
  have h0 := (h 0).1 le_rfl
  exact ⟨h2.1, h2.2, h0.1⟩

/-- C9: over any completion order reachable from a bounded worker pool, the
harness returns exactly one result record per job, keyed by the original
member index, and a job with a non-zero exit code yields a failed record
while every other job still completes and is recorded. -/
theorem poolRun_results_keyed (jobs : List Ppe.Job) (order : List ℕ)
    (horder : order.Perm (List.range jobs.length)) :
    (poolRun jobs order).length = jobs.length ∧
    (∀ i < jobs.length,
      runJob jobs i ∈ poolRun jobs order ∧
      (∀ r ∈ poolRun jobs order, r.index = i → r = runJob jobs i) ∧
      (poolRun jobs order).countP (fun r => r.index == i) = 1) ∧
    (∀ i < jobs.length, (jobs.getD i default).exit_code ≠ 0 →
      (runJob jobs i).status = .failed ∧
      ∀ j < jobs.length, j ≠ i → runJob jobs j ∈ poolRun jobs order) := by
  have hmem : ∀ i < jobs.length, i ∈ order := by
    intro i hi
    exact horder.mem_iff.mpr (List.mem_range.mpr hi)
  refine ⟨?_, ?_, ?_⟩
  · rw [poolRun, List.length_map, horder.length_eq, List.length_range]
  · intro i hi
    refine ⟨?_, ?_, ?_⟩
    · exact List.mem_map.mpr ⟨i, hmem i hi, rfl⟩
    · intro r hr hri
      obtain ⟨x, _, rfl⟩ := List.mem_map.mp hr
      have : x = i := hri
      rw [this]
    · rw [poolRun, List.countP_map]
      have hfun : ((fun r : JobResult => r.index == i) ∘ runJob jobs) =
          (fun x => x == i) := rfl
      rw [hfun, ← List.count, horder.count_eq]
      exact List.count_eq_one_of_mem (List.nodup_range jobs.length)
        (List.mem_range.mpr hi)
  · intro i hi hexit
    refine ⟨?_, ?_⟩
    · rw [runJob]
      simp only [if_neg hexit]
    · intro j hj _
      exact List.mem_map.mpr ⟨j, hmem j hj, rfl⟩

/-- Witness for C9: three jobs with exit codes 0, 3, 0 run under the
completion order [2, 0, 1]: the failed job 1 is recorded as failed with
exactly one record, and every job is recorded. -/
theorem poolRun_results_keyed_witness :
    (Ppe.poolRun [⟨0⟩, ⟨3⟩, ⟨0⟩] [2, 0, 1]).countP
      (fun r => r.index == 1) = 1 ∧
    (Ppe.runJob [⟨0⟩, ⟨3⟩, ⟨0⟩] 1).status = .failed := by
  have h := poolRun_results_keyed [⟨0⟩, ⟨3⟩, ⟨0⟩] [2, 0, 1] (by decide)
  exact ⟨(h.2.1 1 (by decide)).2.2, (h.2.2 1 (by decide) (by decide)).1⟩

/-- C10: the `AerosolProcesses` dataclass requires exactly the four keyword
fields `aging`, `coagulation`, `mosaic`, `nucleation`: any construction that
supplies an unknown keyword or omits one of the four fails with `TypeError`,
and supplying exactly the four succeeds and stores each value in the
corresponding field. -/
theorem mkAerosolProcesses_exactly_four_kwargs :
    (∀ (kwargs : List (String × PyVal)) (kv : String × PyVal),
      kv ∈ kwargs → kv.1 ∉ aerosolProcessesFields →
      mkAerosolProcesses kwargs = .error .typeError) ∧
    (∀ (kwargs : List (String × PyVal)) (fld : String),
      fld ∈ aerosolProcessesFields → findKwarg kwargs fld = none →
      mkAerosolProcesses kwargs = .error .typeError) ∧
    (∀ a c m n : PyVal,
      mkAerosolProcesses
        [("aging", a), ("coagulation", c), ("mosaic", m), ("nucleation", n)] =
      .ok ⟨a, c, m, n⟩) := by
  refine ⟨?_, ?_, ?_⟩
  · intro kwargs kv hmem hnot
    unfold mkAerosolProcesses
    rw [if_neg]
    intro hall
    rw [List.all_eq_true] at hall
    exact hnot (by simpa using hall kv hmem)
  · intro kwargs fld hfld hnone
    simp only [aerosolProcessesFields, List.mem_cons,
      List.not_mem_nil, or_false] at hfld
    unfold mkAerosolProcesses
    split
    · split
      · rcases hfld with rfl | rfl | rfl | rfl <;> simp_all
      · rfl
    · rfl
  · intro a c m n
    rfl

/-- Witness for C10 at the input of `demo.py`:
`AerosolProcesses(coagulation=True, condensation=True)` raises `TypeError`
because `condensation` is not a declared field. -/
theorem mkAerosolProcesses_exactly_four_kwargs_witness :
    mkAerosolProcesses
      [("coagulation", .boolean true), ("condensation", .boolean true)] =
      .error .typeError :=
  mkAerosolProcesses_exactly_four_kwargs.1
    [("coagulation", .boolean true), ("condensation", .boolean true)]
    ("condensation", .boolean true) (by simp) (by decide)

/-- C7: in `ambrs/aerosol.py` the `AerosolSpecies` dataclass declares only
`name` and `molar_mass`, so the construction performed by the test suite
(`test_ppe.py` supplies `density` and `hygroscopicity` as well) raises
`TypeError` instead of succeeding. -/
theorem mkAerosolSpecies_so4_test_input_typeError :
    mkAerosolSpecies
      [("name", .str "so4"), ("molar_mass", .num (97071/1000)),
       ("density", .num 1770), ("hygroscopicity", .num (507/1000))] =
      .error .typeError := rfl

/-- C8: in `ambrs/aerosol.py` the `AerosolModeDistribution` dataclass has no
`log10_geom_std_dev` field, so the construction performed by the test suite
(`test_ppe.py` passes a `log10_geom_std_dev` keyword) raises `TypeError`. -/
theorem mkAerosolModeDistribution_log10_kwarg_typeError :
    mkAerosolModeDistribution
      [("name", .str "aitken"),
       ("species", .vals [.str "so4", .str "soa", .str "ncl"]),
       ("number", .dist 0),
       ("geom_mean_diam", .dist 1),
       ("log10_geom_std_dev", .num (20412/100000)),
       ("mass_fractions", .vals [.dist 2, .dist 3, .dist 4])] =
      .error .typeError := rfl

/-- C6 counterexample: constructing an `AerosolModeDistribution` whose
species tuple has length 2 while its mass-fractions tuple has length 1
succeeds (no `ShapeError` is raised): the dataclass performs no shape
validation at construction time. -/
theorem mkAerosolModeDistribution_mismatched_lengths_ok :
    mkAerosolModeDistribution
      [("name", .str "m"),
       ("species", .vals [.str "a", .str "b"]),
       ("number", .dist 0),
       ("geom_mean_diam", .dist 1),
       ("mass_fractions", .vals [.dist 2])] =
      .ok ⟨.str "m", .vals [.str "a", .str "b"], .dist 0, .dist 1,
        .vals [.dist 2]⟩ ∧
    [PyVal.str "a", PyVal.str "b"].length ≠ [PyVal.dist 2].length :=
  ⟨rfl, by decide⟩

/-- C6 amended: constructing an `AerosolModeDistribution` with its five
declared fields always succeeds and stores the field values verbatim,
whatever the lengths of the species and mass-fractions tuples; the
dataclass performs no structural validation. -/
theorem mkAerosolModeDistribution_no_shape_validation :
    ∀ vn vs vnum vg vmf : PyVal,
      mkAerosolModeDistribution
        [("name", vn), ("species", vs), ("number", vnum),
         ("geom_mean_diam", vg), ("mass_fractions", vmf)] =
      .ok ⟨vn, vs, vnum, vg, vmf⟩ := by
  intro vn vs vnum vg vmf
  rfl

/-- Witness for the amended C6 at the mismatched-lengths input. -/
theorem mkAerosolModeDistribution_no_shape_validation_witness :
    mkAerosolModeDistribution
      [("name", .str "m"),
       ("species", .vals [.str "a", .str "b"]),
       ("number", .dist 0),
       ("geom_mean_diam", .dist 1),
       ("mass_fractions", .vals [.dist 2])] =
      .ok ⟨.str "m", .vals [.str "a", .str "b"], .dist 0, .dist 1,
        .vals [.dist 2]⟩ :=
  mkAerosolModeDistribution_no_shape_validation (.str "m")
    (.vals [.str "a", .str "b"]) (.dist 0) (.dist 1) (.vals [.dist 2])

end Ambrs
